import Mathlib

/-!
Verification development for the tournament runner
(map generation, match state machine, persistence layer, orchestrator).

Modelling conventions:
* machine integers (`u32`/`i64`/`usize`) are modelled as `Nat` (all the
  quantities involved are non-negative; `saturating_sub` becomes truncated
  `Nat` subtraction, which matches the saturating semantics at zero);
* the seeded RNG stream is modelled as an oracle `Rng := List Nat`: each
  random decision consumes the head of the stream and reduces it modulo the
  size of the range being sampled (a uniform selection from a non-empty list
  consumes exactly one oracle value);
* the continuous `random::<f64>()` roll of the gamble handler is modelled as
  an oracle value reduced modulo 100, with the branch thresholds 0.1 / 0.2 /
  0.6 becoming `< 10` / `< 20` / `< 60`, which preserves the branch
  structure and ordering of the source;
* fallible operations return `Except`/`Option`; a division-by-zero panic of
  `random_ratio` is modelled as the error `GameErr.zeroDenominator`.
-/

/-- `MapNodeType` from the event-protocol crate. -/
inductive MapNodeType where
  | Normal
  | Healing
  | Gamble
  | Teleport
deriving DecidableEq, Repr

/-- `PlayerState` from the event-protocol crate: health, max health, power. -/
structure PlayerState where
  health : Nat
  max_health : Nat
  power : Nat
deriving DecidableEq, Repr

/-- `GambleChoices` from the event-protocol crate. -/
inductive GambleChoices where
  | Power
  | Health
  | Skip
deriving DecidableEq, Repr

/-- `FightChoices` from the event-protocol crate. -/
inductive FightChoices where
  | Fight
  | Flee
deriving DecidableEq, Repr

/-- `GameResult` (game.rs). -/
inductive GameResult where
  | Player1Win
  | Player2Win
  | Tie
deriving DecidableEq, Repr

/-- `FightTarget` (game.rs): the opponent, or one of the two hazards. -/
inductive FightTarget where
  | Opponent
  | Enemy (idx : Nat)
deriving DecidableEq, Repr

/-- RNG oracle: the stream of random decisions drawn from the seeded RNG. -/
abbrev Rng := List Nat

/-- Draw one value from the RNG oracle (an exhausted oracle yields zeros;
all theorems either quantify over the stream or supply a concrete one). -/
def rngNext : Rng → Nat × Rng
  | [] => (0, [])
  | n :: rest => (n, rest)

/-- `rng.random_range(lo..=hi)`: one draw, mapped into the closed range. -/
def rngRange (lo hi : Nat) (rng : Rng) : Nat × Rng :=
  let (k, rng) := rngNext rng
  (lo + k % (hi + 1 - lo), rng)

/-- `rng.random_bool(0.85)`: one draw, true on the first 85 of 100 residues. -/
def rngBool85 (rng : Rng) : Bool × Rng :=
  let (k, rng) := rngNext rng
  (k % 100 < 85, rng)

/-- Uniform selection from a list (`choose`, or `shuffle` followed by
`first`): one draw, index reduced modulo the length.  Selecting from an
empty list consumes nothing and yields `none`. -/
def rngPick {α : Type} (l : List α) (rng : Rng) : Option α × Rng :=
  if l.isEmpty then (none, rng)
  else
    let (k, rng) := rngNext rng
    (l.get? (k % l.length), rng)

/-- `rng.random_ratio(num, denom)`: true with probability `num / denom`,
decided by one uniform draw; `none` models the panic on a zero
denominator. -/
def rngRatio (num denom : Nat) (rng : Rng) : Option Bool × Rng :=
  if denom = 0 then (none, rng)
  else
    let (k, rng) := rngNext rng
    (some (k % denom < num), rng)

section Persistence

/-!
## Persistence layer (db.rs)

The three tables are modelled as in-memory lists of rows; the row `id` is
the SQLite rowid (starting at 1, `last_insert_rowid` returns the id of the
inserted row).
-/

/-- Error type of a storage operation: the transient lock error
(`SqliteFailure(SQLITE_BUSY, "database is locked")`) or any other error,
tagged with a code so distinct non-lock errors exist. -/
inductive DbErr where
  | locked
  | other (code : Nat)
deriving DecidableEq, Repr

/-- `Database::retry_on_locked` (db.rs:77-108), with the closure modelled as
a function from the attempt index to its outcome.  Returns the final result
together with the list of backoff sleeps (in milliseconds) performed between
attempts. -/
def retry_go {α : Type} (f : Nat → Except DbErr α) (attempt retries : Nat)
    (delays : List Nat) : Except DbErr α × List Nat :=
  match f attempt with
  | .ok r => (.ok r, delays)
  | .error e =>
    if h : 10 ≤ retries then (.error e, delays)
    else if e = .locked then
      retry_go f (attempt + 1) (retries + 1) (delays ++ [10 * 2 ^ retries])
    else (.error e, delays)
termination_by 10 + 1 - retries
decreasing_by omega

/-- `Database::retry_on_locked`, entry point: attempt 0, zero retries. -/
def retry_on_locked {α : Type} (f : Nat → Except DbErr α) :
    Except DbErr α × List Nat :=
  retry_go f 0 0 []

/-- One row of the `games` table. -/
structure GameRow where
  id : Nat
  matchup_id : Nat
  game_number : Nat
  winner : String
  seed : Int
deriving DecidableEq, Repr

/-- The `games` table: rows plus the next rowid (SQLite rowids start at 1). -/
structure GamesTable where
  rows : List GameRow
  next_id : Nat
deriving DecidableEq, Repr

/-- The empty `games` table of a fresh database. -/
def GamesTable.empty : GamesTable := ⟨[], 1⟩

/-- `Database::create_game` (db.rs:163-199): select-before-insert keyed on
`(matchup_id, game_number)`; returns the existing rowid if present,
otherwise inserts a row with winner `pending` and returns its rowid. -/
def create_game (matchup_id game_number : Nat) (seed : Int)
    (t : GamesTable) : Nat × GamesTable :=
  match t.rows.find? (fun r =>
      r.matchup_id == matchup_id && r.game_number == game_number) with
  | some r => (r.id, t)
  | none =>
    (t.next_id,
     ⟨t.rows ++ [⟨t.next_id, matchup_id, game_number, "pending", seed⟩],
      t.next_id + 1⟩)

/-- The winner string stored for a result (db.rs:207-211). -/
def winnerString : GameResult → String
  | .Player1Win => "player_a"
  | .Player2Win => "player_b"
  | .Tie => "tie"

/-- `Database::update_game_result` (db.rs:201-232):
`UPDATE games SET winner = ?1 WHERE matchup_id = ?2 AND game_number = ?3`. -/
def update_game_result (matchup_id game_number : Nat) (result : GameResult)
    (t : GamesTable) : GamesTable :=
  { t with
    rows := t.rows.map (fun r =>
      if r.matchup_id == matchup_id && r.game_number == game_number then
        { r with winner := winnerString result }
      else r) }

/-- The persistence calls `Game::result` issues for the game row
(game.rs:92-94 and game.rs:158/171/182): `create_game` is keyed by
`(matchup_id, game_number)` and returns the table rowid `game_db_id`; the
final `update_game_result` call passes that rowid as its `game_number`
argument. -/
def result_persist_flow (matchup_id game_number : Nat) (seed : Int)
    (result : GameResult) (t : GamesTable) : GamesTable :=
  let (game_db_id, t1) := create_game matchup_id game_number seed t
  update_game_result matchup_id game_db_id result t1

/-- One row of the `turns` table. -/
structure TurnRow where
  id : Nat
  game_id : Nat
  turn_number : Nat
  svg_path : String
deriving DecidableEq, Repr

/-- The `turns` table: rows plus the next rowid. -/
structure TurnsTable where
  rows : List TurnRow
  next_id : Nat
deriving DecidableEq, Repr

/-- `Database::record_turn` (db.rs:234-273): select-before-insert keyed on
`(game_id, turn_number)`; a pre-existing row is success without insertion. -/
def record_turn (game_id turn_number : Nat) (svg_path : String)
    (t : TurnsTable) : Except DbErr Unit × TurnsTable :=
  if t.rows.any (fun r => r.game_id == game_id && r.turn_number == turn_number)
  then (.ok (), t)
  else (.ok (),
    ⟨t.rows ++ [⟨t.next_id, game_id, turn_number, svg_path⟩], t.next_id + 1⟩)

/-- Number of rows of the `turns` table holding a given key. -/
def turnRowCount (game_id turn_number : Nat) (t : TurnsTable) : Nat :=
  (t.rows.filter (fun r =>
    r.game_id == game_id && r.turn_number == turn_number)).length

end Persistence

section Orchestrator

/-- The effective game number assigned by `run_games` (main.rs:183-189):
odd repetition indices are shifted by `rounds_per_pair` (and have their
sides swapped). -/
def effective_game_number (rounds_per_pair game_number : Nat) : Nat :=
  let is_reversed := game_number % 2 ≠ 0
  if is_reversed then rounds_per_pair + game_number else game_number

end Orchestrator

section MapModel

/-!
## Board graph (game_map.rs)

The petgraph `DiGraph<MapNodeType, ()>` is modelled as the list of node
types (position = node index) plus the list of edges in order of addition.
petgraph iterates a node's incident edges newest-first, so directed edge
queries reverse the addition-ordered filter.  Edge removal removes the
referenced edge occurrence.  (petgraph's `remove_edge` also swaps the last
arena slot into the freed index; the only removal of a collected index that
happens after further mutations is the self-loop sweep in `GameMap::new`,
and there the arena never shrinks between collection and removal, so the
collected indices still denote the collected loop edges and
remove-by-reference is the faithful semantics.)
-/

/-- The board graph: node types (position = index) and edges in order of
addition. -/
structure GameMap where
  nodes : List MapNodeType
  edges : List (Nat × Nat)
deriving DecidableEq, Repr

namespace GameMap

/-- `GameMap::get_node_type` / `node_weight`. -/
def get_node_type (m : GameMap) (node : Nat) : Option MapNodeType :=
  m.nodes.get? node

/-- `GameMap::node_indices`. -/
def node_indices (m : GameMap) : List Nat :=
  List.range m.nodes.length

/-- Outgoing edges of a node, newest-first (petgraph iteration order). -/
def outgoing (m : GameMap) (node : Nat) : List (Nat × Nat) :=
  (m.edges.filter (fun e => e.1 == node)).reverse

/-- Number of outgoing edges of a node. -/
def out_count (m : GameMap) (node : Nat) : Nat :=
  (m.edges.filter (fun e => e.1 == node)).length

/-- Number of incoming edges of a node. -/
def in_count (m : GameMap) (node : Nat) : Nat :=
  (m.edges.filter (fun e => e.2 == node)).length

/-- `GameMap::get_loops`: the self-loop edges at a node (the source returns
their edge indices; only their number and identity are ever used). -/
def loop_count (m : GameMap) (node : Nat) : Nat :=
  (m.edges.filter (fun e => e.1 == node && e.2 == node)).length

/-- `GameMap::get_node_degree` (game_map.rs:214-221): max of out-degree and
in-degree, discounting paired self-loops. -/
def get_node_degree (m : GameMap) (node : Nat) : Nat :=
  max (m.out_count node) (m.in_count node) - m.loop_count node / 2

/-- `GameMap::is_node_balanced` (game_map.rs:238-243). -/
def is_node_balanced (m : GameMap) (node : Nat) : Bool :=
  m.out_count node == m.in_count node

/-- `graph.find_edge(a, b).is_some()`. -/
def find_edge (m : GameMap) (a b : Nat) : Bool :=
  m.edges.contains (a, b)

/-- `graph.add_edge(a, b, ())`. -/
def add_edge (m : GameMap) (a b : Nat) : GameMap :=
  { m with edges := m.edges ++ [(a, b)] }

/-- `GameMap::get_outgoing_nodes`: targets of the outgoing edges,
newest-first. -/
def get_outgoing_nodes (m : GameMap) (node : Nat) : List Nat :=
  (m.outgoing node).map (fun e => e.2)

/-- `GameMap::get_available_moves` (game_map.rs:166-175). -/
def get_available_moves (m : GameMap) (from_node : Nat)
    (blocked : List Nat) : List Nat :=
  (m.get_outgoing_nodes from_node).filter (fun t => !(blocked.contains t))

/-- `GameMap::shuffle_available_moves` followed by `.first()` — every caller
only uses the head of the shuffled list, which is a uniform selection. -/
def shuffle_available_moves_first (m : GameMap) (from_node : Nat)
    (blocked : List Nat) (rng : Rng) : Option Nat × Rng :=
  rngPick (m.get_available_moves from_node blocked) rng

/-- `GameMap::get_random_empty_node` (game_map.rs:188-208): a uniformly
random node that is neither blocked nor the Teleport node, `none` when no
such node exists. -/
def get_random_empty_node (m : GameMap) (blocked : List Nat) (rng : Rng) :
    Option Nat × Rng :=
  rngPick (m.node_indices.filter (fun node =>
    !(blocked.contains node) &&
    !(m.get_node_type node == some MapNodeType.Teleport))) rng

/-- `graph.remove_edge` of one referenced edge occurrence. -/
def remove_edge_once (m : GameMap) (e : Nat × Nat) : GameMap :=
  { m with edges := m.edges.erase e }

/-- The loop-removal sweep of `GameMap::new` (game_map.rs:100-103): remove
every self-loop edge of the node. -/
def remove_loops (m : GameMap) (node : Nat) : GameMap :=
  { m with edges := m.edges.filter (fun e => !(e.1 == node && e.2 == node)) }

/-- `map.node_indices().find(|node| degree < MIN_DEGREE)`
(game_map.rs:59-62). -/
def find_low_degree (m : GameMap) : Option Nat :=
  m.node_indices.find? (fun node => m.get_node_degree node < 3)

/-- One iteration of the edge-building loop of `GameMap::new`
(game_map.rs:63-132), for the found low-degree `node`: pick a uniformly
random valid target (not connected in either direction, self only when the
node has no loop yet; bail with `none` when no target exists); if the
target is at max degree make room by removing its self-loops, else by
removing its newest outgoing edge and the corresponding reverse edge if
present (bail when it has no outgoing edge); add the forward edge; add the
reverse edge unconditionally if either endpoint is now unbalanced, else
with probability 85%. -/
def map_step (m : GameMap) (node : Nat) (rng : Rng) :
    Option (GameMap × Rng) :=
  let available := m.node_indices.filter (fun target =>
    !(m.find_edge node target || m.find_edge target node) &&
    !(node == target && !(m.loop_count target == 0)))
  match rngPick available rng with
  | (none, _) => none
  | (some target, rng) =>
    let roomed : Option GameMap :=
      if 4 ≤ m.get_node_degree target then
        if m.loop_count target ≠ 0 then some (m.remove_loops target)
        else
          match m.outgoing target with
          | [] => none
          | e :: _ =>
            let m1 := m.remove_edge_once e
            let other := e.2
            let m2 :=
              if m1.find_edge other target then m1.remove_edge_once (other, target)
              else m1
            some m2
      else some m
    match roomed with
    | none => none
    | some m2 =>
      let m3 := m2.add_edge node target
      if !(m3.is_node_balanced target) || !(m3.is_node_balanced node) then
        some (m3.add_edge target node, rng)
      else
        let (b, rng) := rngBool85 rng
        if b then some (m3.add_edge target node, rng) else some (m3, rng)

/-- The edge-building loop of `GameMap::new`, with explicit fuel (the
source loops unboundedly; success within any fuel is success of the
source loop). -/
def map_new_loop : Nat → GameMap → Rng → Option (GameMap × Rng)
  | 0, _, _ => none
  | fuel + 1, m, rng =>
    match find_low_degree m with
    | none => some (m, rng)
    | some node =>
      match map_step m node rng with
      | none => none
      | some (m2, rng2) => map_new_loop fuel m2 rng2

/-- `GameMap::new` (game_map.rs:31-136): draw the node count in [12,16],
one Teleport node, Healing count in [1,2], Gamble count in [1,2], the
remainder Normal; then run the edge-building loop. -/
def map_new (rng : Rng) (fuel : Nat) : Option (GameMap × Rng) :=
  let (num_nodes, rng) := rngRange 12 16 rng
  let (num_healing, rng) := rngRange 1 2 rng
  let (num_gamble, rng) := rngRange 1 2 rng
  let num_normal := num_nodes - 1 - num_healing - num_gamble
  let nodes :=
    List.replicate 1 MapNodeType.Teleport ++
    List.replicate num_healing MapNodeType.Healing ++
    List.replicate num_gamble MapNodeType.Gamble ++
    List.replicate num_normal MapNodeType.Normal
  map_new_loop fuel ⟨nodes, []⟩ rng

end GameMap

end MapModel

section GameMachine

/-!
## Match state machine (game.rs)

Submission responses are modelled as oracle streams inside `Env` alongside
the RNG stream: each `get_gamble_choice` / `get_fight_choice` call consumes
the head of its stream.
-/

/-- A two-element slot array (`[T; 2]` indexed by `usize`, the other side
being `1 - player`). -/
structure Pair (α : Type) where
  a : α
  b : α
deriving DecidableEq, Repr

/-- Read slot `i` (0 = first, anything else = second). -/
def Pair.get {α : Type} (p : Pair α) (i : Nat) : α :=
  if i = 0 then p.a else p.b

/-- Write slot `i`. -/
def Pair.set {α : Type} (p : Pair α) (i : Nat) (v : α) : Pair α :=
  if i = 0 then ⟨v, p.b⟩ else ⟨p.a, v⟩

/-- Mutable match state: two competitor states and positions, two hazard
states and positions (the map and the RNG are threaded separately). -/
structure GameState where
  players : Pair PlayerState
  player_positions : Pair Nat
  enemies : Pair PlayerState
  enemy_positions : Pair Nat
deriving DecidableEq, Repr

/-- The oracle environment of a match: the RNG stream and the submission
response streams. -/
structure Env where
  rng : Rng
  gambles : List GambleChoices
  fights : List FightChoices
deriving DecidableEq, Repr

/-- Consume the next gamble response (an exhausted stream yields `Skip`). -/
def Env.nextGamble (env : Env) : GambleChoices × Env :=
  match env.gambles with
  | [] => (.Skip, env)
  | g :: rest => (g, { env with gambles := rest })

/-- Consume the next fight response (an exhausted stream yields `Fight`). -/
def Env.nextFight (env : Env) : FightChoices × Env :=
  match env.fights with
  | [] => (.Fight, env)
  | f :: rest => (f, { env with fights := rest })

/-- Failures of the in-turn game logic: the `random_ratio` panic on a zero
denominator, and the `get_random_empty_node` "No empty nodes" error. -/
inductive GameErr where
  | zeroDenominator
  | noEmptyNode
deriving DecidableEq, Repr

/-- The four occupied positions (game.rs:388-393). -/
def blockedPositions (s : GameState) : List Nat :=
  [s.player_positions.a, s.player_positions.b,
   s.enemy_positions.a, s.enemy_positions.b]

/-- `Game::get_random_empty_node` (game.rs:387-397): a random empty node
with all four current positions blocked; erring when none exists. -/
def game_random_empty_node (m : GameMap) (s : GameState) (env : Env) :
    Except GameErr (Nat × Env) :=
  match m.get_random_empty_node (blockedPositions s) env.rng with
  | (none, _) => .error .noEmptyNode
  | (some nd, rng) => .ok (nd, { env with rng := rng })

/-- `Game::heal_player` (game.rs:312-326): heal 1, capped at max health. -/
def heal_player (player : Nat) (s : GameState) : GameState :=
  let ps := s.players.get player
  let ps2 := { ps with health := min (ps.health + 1) ps.max_health }
  { s with players := s.players.set player ps2 }

/-- `Game::damage_player` (game.rs:328-342): lose 1 health, saturating at
zero. -/
def damage_player (player : Nat) (s : GameState) : GameState :=
  let ps := s.players.get player
  let ps2 := { ps with health := ps.health - 1 }
  { s with players := s.players.set player ps2 }

/-- The gamble outcome applied to the chosen value (game.rs:279-284):
below 10% halve, below 20% double, below 60% gain 1, else lose 1
saturating. -/
def gambleApply (roll v : Nat) : Nat :=
  if roll % 100 < 10 then v / 2
  else if roll % 100 < 20 then v * 2
  else if roll % 100 < 60 then v + 1
  else v - 1

/-- `Game::handle_gamble` (game.rs:259-310): ask the submission for a
choice, draw one roll, apply the outcome to power or health (Skip draws the
roll but changes nothing), re-capping health at max health when health was
gambled. -/
def handle_gamble (player : Nat) (s : GameState) (env : Env) :
    GameState × Env :=
  let (response, env) := env.nextGamble
  let (roll, rng) := rngNext env.rng
  let env := { env with rng := rng }
  let ps := s.players.get player
  match response with
  | .Skip => (s, env)
  | .Power =>
    let ps2 := { ps with power := gambleApply roll ps.power }
    ({ s with players := s.players.set player ps2 }, env)
  | .Health =>
    let ps2 :=
      { ps with health := min (gambleApply roll ps.health) ps.max_health }
    ({ s with players := s.players.set player ps2 }, env)

/-- `Game::generate_enemy` (game.rs:399-407): hazard slot regenerated with
health = max health = 1 and a fresh power uniform in [2,7]; repositioned on
a random empty node (node 0 on failure, `unwrap_or_default`). -/
def generate_enemy (m : GameMap) (index : Nat) (s : GameState) (env : Env) :
    GameState × Env :=
  let (p, rng) := rngRange 2 7 env.rng
  let env := { env with rng := rng }
  let s := { s with enemies := s.enemies.set index ⟨1, 1, p⟩ }
  match m.get_random_empty_node (blockedPositions s) env.rng with
  | (none, rng2) =>
    ({ s with enemy_positions := s.enemy_positions.set index 0 },
     { env with rng := rng2 })
  | (some nd, rng2) =>
    ({ s with enemy_positions := s.enemy_positions.set index nd },
     { env with rng := rng2 })

/-- `Game::handle_fight` (game.rs:201-257): one `random_ratio(P, P+Q)`
draw decides the fight; on a win against the opponent the loser takes 1
damage and is relocated to a random empty node; on a win against a hazard
the initiator gains `Q / 2` power and the hazard is regenerated; on a loss
the initiator takes 1 damage and is relocated to a random empty node. -/
def handle_fight (m : GameMap) (player : Nat) (target : FightTarget)
    (s : GameState) (env : Env) : Except GameErr (Bool × GameState × Env) :=
  let player_power := (s.players.get player).power
  let enemy_power :=
    match target with
    | .Opponent => (s.players.get (1 - player)).power
    | .Enemy idx => (s.enemies.get idx).power
  match rngRatio player_power (player_power + enemy_power) env.rng with
  | (none, _) => .error .zeroDenominator
  | (some player_wins, rng) =>
    let env := { env with rng := rng }
    if player_wins then
      match target with
      | .Opponent =>
        let other := 1 - player
        let s := damage_player other s
        match game_random_empty_node m s env with
        | .error e => .error e
        | .ok (nd, env) =>
          .ok (true,
            { s with player_positions := s.player_positions.set other nd },
            env)
      | .Enemy idx =>
        let ps := s.players.get player
        let ps2 := { ps with power := ps.power + enemy_power / 2 }
        let s := { s with players := s.players.set player ps2 }
        let (s, env) := generate_enemy m idx s env
        .ok (true, s, env)
    else
      let s := damage_player player s
      match game_random_empty_node m s env with
      | .error e => .error e
      | .ok (nd, env) =>
        .ok (false,
          { s with player_positions := s.player_positions.set player nd },
          env)

/-- `Game::check_for_fights` (game.rs:370-385): opponent collision first,
then the first hazard whose position matches. -/
def check_for_fights (player : Nat) (s : GameState) : Option FightTarget :=
  let node := s.player_positions.get player
  if s.player_positions.get (1 - player) == node then some .Opponent
  else if s.enemy_positions.a == node then some (.Enemy 0)
  else if s.enemy_positions.b == node then some (.Enemy 1)
  else none

/-- `Game::handle_node_effect` (game.rs:430-448): Healing heals 1; Gamble
runs the gamble; Teleport relocates to a random empty node and reports
`true`; Normal does nothing. -/
def handle_node_effect (m : GameMap) (player : Nat) (node_type : MapNodeType)
    (s : GameState) (env : Env) : Except GameErr (Bool × GameState × Env) :=
  match node_type with
  | .Healing => .ok (false, heal_player player s, env)
  | .Gamble =>
    let (s, env) := handle_gamble player s env
    .ok (false, s, env)
  | .Teleport =>
    match game_random_empty_node m s env with
    | .error e => .error e
    | .ok (nd, env) =>
      .ok (true,
        { s with player_positions := s.player_positions.set player nd }, env)
  | .Normal => .ok (false, s, env)

/-- `Game::handle_escape_move` (game.rs:543-562): move to the node, apply
its node effect unless it is the Teleport node (escapes never chain). -/
def handle_escape_move (m : GameMap) (player : Nat) (_node_from node_to : Nat)
    (s : GameState) (env : Env) : Except GameErr (GameState × Env) :=
  let s := { s with player_positions := s.player_positions.set player node_to }
  match m.get_node_type node_to with
  | some nt =>
    if nt ≠ .Teleport then
      match handle_node_effect m player nt s env with
      | .error e => .error e
      | .ok (_, s, env) => .ok (s, env)
    else .ok (s, env)
  | none => .ok (s, env)

/-- `Game::handle_flee` (game.rs:483-504): try a random unblocked adjacent
node, falling back to a random empty node (node 0 if even that fails), then
resolve the landing as an escape move. -/
def handle_flee (m : GameMap) (player : Nat) (s : GameState) (env : Env) :
    Except GameErr (GameState × Env) :=
  let current_pos := s.player_positions.get player
  let (mv, rng) :=
    m.shuffle_available_moves_first current_pos (blockedPositions s) env.rng
  let env := { env with rng := rng }
  match mv with
  | some new_pos => handle_escape_move m player current_pos new_pos s env
  | none =>
    match game_random_empty_node m s env with
    | .error _ => handle_escape_move m player current_pos 0 s env
    | .ok (nd, env) => handle_escape_move m player current_pos nd s env

/-- `Game::handle_combat_encounter` (game.rs:450-481): a collision with the
opponent fights immediately; a collision with a hazard asks the submission
for Fight or Flee. -/
def handle_combat_encounter (m : GameMap) (player : Nat)
    (fight_target : FightTarget) (s : GameState) (env : Env) :
    Except GameErr (GameState × Env) :=
  match fight_target with
  | .Opponent =>
    match handle_fight m player .Opponent s env with
    | .error e => .error e
    | .ok (_, s, env) => .ok (s, env)
  | .Enemy idx =>
    let (response, env) := env.nextFight
    match response with
    | .Fight =>
      match handle_fight m player (.Enemy idx) s env with
      | .error e => .error e
      | .ok (_, s, env) => .ok (s, env)
    | .Flee => handle_flee m player s env

/-- `Game::handle_regular_move` (game.rs:506-541): move, apply the node
effect; a Teleport effect is followed by a second random-empty-node draw
resolved as an escape move (and nothing else); otherwise check for an
occupancy collision and resolve the encounter. -/
def handle_regular_move (m : GameMap) (player : Nat)
    (_node_from node_to : Nat) (s : GameState) (env : Env) :
    Except GameErr (GameState × Env) :=
  let s := { s with player_positions := s.player_positions.set player node_to }
  let step :=
    match m.get_node_type node_to with
    | some nt => handle_node_effect m player nt s env
    | none => .ok (false, s, env)
  match step with
  | .error e => .error e
  | .ok (true, s, env) =>
    match game_random_empty_node m s env with
    | .error e => .error e
    | .ok (new_pos, env) =>
      handle_escape_move m player node_to new_pos s env
  | .ok (false, s, env) =>
    match check_for_fights player s with
    | some ft => handle_combat_encounter m player ft s env
    | none => .ok (s, env)

/-- `Game::handle_player_movement` (game.rs:564-580): logging plus
`handle_regular_move`. -/
def handle_player_movement (m : GameMap) (player : Nat)
    (node_from node_to : Nat) (s : GameState) (env : Env) :
    Except GameErr (GameState × Env) :=
  handle_regular_move m player node_from node_to s env

/-- The move options offered to a competitor (`Game::get_available_moves`,
game.rs:409-428): the outgoing edges of its position, as the parallel lists
of exposed node types and hidden node indices. -/
structure WrappedChoices where
  node_types : List MapNodeType
  internal_choices : List Nat
deriving DecidableEq, Repr

/-- `Game::get_available_moves` (game.rs:409-428). -/
def get_available_moves (m : GameMap) (player : Nat) (s : GameState) :
    WrappedChoices :=
  let targets := m.get_outgoing_nodes (s.player_positions.get player)
  let pairs := targets.filterMap (fun t =>
    (m.get_node_type t).map (fun nt => (nt, t)))
  ⟨pairs.map (fun p => p.1), pairs.map (fun p => p.2)⟩

/-- The acting competitor's phase of one turn of `Game::result`
(game.rs:132-150): offer the moves, look the returned index up in the offer
(`choices.internal_choices.get(response.choice_index)`); in range moves the
actor, out of range damages the actor and skips the rest of the phase. -/
def player_turn_phase (m : GameMap) (player choice_index : Nat)
    (s : GameState) (env : Env) : Except GameErr (GameState × Env) :=
  let choices := get_available_moves m player s
  match choices.internal_choices.get? choice_index with
  | some node_to =>
    handle_player_movement m player (s.player_positions.get player) node_to
      s env
  | none => .ok (damage_player player s, env)

/-- One hazard's move in `Game::handle_enemy_turn` (game.rs:344-368): the
hazard takes a random legal move (both hazards' positions blocked); if it
lands on a competitor (positions snapshot taken after the move), a
hazard-side fight resolves with that competitor. -/
def handle_enemy_turn_step (m : GameMap) (i : Nat) (s : GameState)
    (env : Env) : Except GameErr (GameState × Env) := do
  let current_pos := s.enemy_positions.get i
  let blocked := [s.enemy_positions.a, s.enemy_positions.b]
  let (mv, rng) := m.shuffle_available_moves_first current_pos blocked env.rng
  let env := { env with rng := rng }
  match mv with
  | none => return (s, env)
  | some new_pos =>
    let s := { s with enemy_positions := s.enemy_positions.set i new_pos }
    let snapshot := s.player_positions
    let (s, env) ←
      if snapshot.get 0 == new_pos then do
        let (_, s2, env2) ← handle_fight m 0 (.Enemy i) s env
        pure (s2, env2)
      else pure (s, env)
    let (s, env) ←
      if snapshot.get 1 == new_pos then do
        let (_, s2, env2) ← handle_fight m 1 (.Enemy i) s env
        pure (s2, env2)
      else pure (s, env)
    return (s, env)

/-- `Game::handle_enemy_turn` (game.rs:344-368): both hazards move in
order. -/
def handle_enemy_turn (m : GameMap) (s : GameState) (env : Env) :
    Except GameErr (GameState × Env) := do
  let (s, env) ← handle_enemy_turn_step m 0 s env
  handle_enemy_turn_step m 1 s env

end GameMachine

section Helpers

/-- Reading the slot just written. -/
theorem Pair.get_set_same {α : Type} (p : Pair α) (i : Nat) (v : α) :
    (p.set i v).get i = v := by
  unfold Pair.get Pair.set
  by_cases h : i = 0 <;> simp [h]

/-- Writing one slot leaves the other side (`1 - i`) unchanged. -/
theorem Pair.get_set_other {α : Type} (p : Pair α) (i : Nat) (v : α) :
    (p.set i v).get (1 - i) = p.get (1 - i) := by
  unfold Pair.get Pair.set
  by_cases h : i = 0
  · simp [h]
  · have h1 : 1 - i = 0 := by omega
    simp [h, h1]

end Helpers

section ClaimC9

/-- C9: for every rounds-per-pair count and every pair of distinct
repetition indices in `[0, rounds_per_pair)`, the effective game numbers
assigned by `run_games` (index for even indices, `rounds_per_pair + index`
for odd ones) are distinct, so no two repetitions of one matchup persist
the same (matchup, game number) key. -/
theorem c9_effective_game_numbers_distinct (rounds_per_pair i j : Nat)
    (hi : i < rounds_per_pair) (hj : j < rounds_per_pair) (hij : i ≠ j) :
    effective_game_number rounds_per_pair i ≠
      effective_game_number rounds_per_pair j := by
  simp only [effective_game_number]
  split_ifs <;> omega

/-- Witness for C9 at rounds-per-pair 3, indices 1 and 2. -/
theorem c9_witness :
    effective_game_number 3 1 ≠ effective_game_number 3 2 :=
  c9_effective_game_numbers_distinct 3 1 2 (by decide) (by decide) (by decide)

end ClaimC9

section ClaimC6

/-- Running `retry_go` through `k` initial lock failures accumulates `k`
doubling backoff sleeps and advances the attempt and retry counters. -/
theorem retry_go_locked_steps {α : Type} (f : Nat → Except DbErr α) :
    ∀ (k a r : Nat) (d : List Nat), r + k ≤ 10 →
    (∀ i, i < k → f (a + i) = .error .locked) →
    retry_go f a r d =
      retry_go f (a + k) (r + k)
        (d ++ (List.range k).map (fun i => 10 * 2 ^ (r + i))) := by
  intro k
  induction k with
  | zero => intro a r d _ _; simp
  | succ n ih =>
    intro a r d hle h
    have h0 : f a = .error .locked := by
      have := h 0 (by omega)
      simpa using this
    have hr : ¬ 10 ≤ r := by omega
    rw [retry_go, h0]
    simp only [hr, dite_false, dif_neg, not_false_iff, reduceIte]
    rw [ih (a + 1) (r + 1) (d ++ [10 * 2 ^ r]) (by omega)
      (fun i hi => by
        have := h (i + 1) (by omega)
        simpa [Nat.add_assoc, Nat.add_comm 1 i] using this)]
    have harith1 : a + 1 + n = a + (n + 1) := by omega
    have harith2 : r + 1 + n = r + (n + 1) := by omega
    have hlist :
        d ++ [10 * 2 ^ r] ++ (List.range n).map (fun i => 10 * 2 ^ (r + 1 + i))
          = d ++ (List.range (n + 1)).map (fun i => 10 * 2 ^ (r + i)) := by
      rw [List.append_assoc]
      congr 1
      rw [List.range_succ_eq_map, List.map_cons, List.map_map]
      have h2 : ((fun i => 10 * 2 ^ (r + i)) ∘ Nat.succ)
          = (fun i => 10 * 2 ^ (r + 1 + i)) := by
        funext i
        have h3 : r + Nat.succ i = r + 1 + i := by omega
        simp [Function.comp, h3]
      rw [h2]
      simp
    rw [harith1, harith2, hlist]

end ClaimC6

/-- C6: the retry wrapper (a) returns the success of attempt `k + 1` after
`k ≤ 10` lock failures, having slept the exponential backoff sequence
10ms, 20ms, ... doubling each retry; (b) returns any non-lock failure
immediately — whether on the first attempt or after any run of `k ≤ 10`
lock retries — with no further retry and no further sleep; (c) after 10
lock-error retries returns the last lock error to the caller. -/
theorem c6_retry_on_locked_policy :
    (∀ (α : Type) (f : Nat → Except DbErr α) (v : α) (k : Nat), k ≤ 10 →
      (∀ i, i < k → f i = .error .locked) → f k = .ok v →
      retry_on_locked f = (.ok v, (List.range k).map (fun i => 10 * 2 ^ i))) ∧
    (∀ (α : Type) (f : Nat → Except DbErr α) (c : Nat) (k : Nat), k ≤ 10 →
      (∀ i, i < k → f i = .error .locked) → f k = .error (.other c) →
      retry_on_locked f =
        (.error (.other c), (List.range k).map (fun i => 10 * 2 ^ i))) ∧
    (∀ (α : Type) (f : Nat → Except DbErr α),
      (∀ i, i ≤ 10 → f i = .error .locked) →
      retry_on_locked f =
        (.error .locked, (List.range 10).map (fun i => 10 * 2 ^ i))) := by
  refine ⟨?_, ?_, ?_⟩
  · intro α f v k hk h hok
    unfold retry_on_locked
    rw [retry_go_locked_steps f k 0 0 [] (by omega) (fun i hi => by simpa using h i hi)]
    rw [retry_go]
    simp only [Nat.zero_add, List.nil_append]
    rw [hok]
  · intro α f c k hk h hbad
    unfold retry_on_locked
    rw [retry_go_locked_steps f k 0 0 [] (by omega) (fun i hi => by simpa using h i hi)]
    rw [retry_go]
    simp only [Nat.zero_add, List.nil_append]
    rw [hbad]
    by_cases hk10 : 10 ≤ k
    · simp [hk10]
    · simp [hk10]
  · intro α f h
    unfold retry_on_locked
    rw [retry_go_locked_steps f 10 0 0 [] (by omega)
      (fun i hi => by simpa using h i (by omega))]
    rw [retry_go]
    have h10 : f (0 + 10) = .error .locked := by simpa using h 10 (by omega)
    rw [h10]
    simp

/-- Witness for C6: a storage operation failing with the lock error on its
first 3 attempts and succeeding on the 4th returns that success after
sleeping 10ms, 20ms, 40ms; one failing with the lock error twice and then
with a non-lock error returns that error at once, having slept only 10ms
and 20ms. -/
theorem c6_witness :
    retry_on_locked
        (fun i => if i < 3 then Except.error DbErr.locked else Except.ok 7)
      = (Except.ok 7, [10, 20, 40]) ∧
    retry_on_locked
        (fun i => if i < 2 then Except.error DbErr.locked
          else Except.error (DbErr.other 5) : Nat → Except DbErr Nat)
      = (Except.error (DbErr.other 5), [10, 20]) := by
  constructor
  · have := c6_retry_on_locked_policy.1 Nat
      (fun i => if i < 3 then Except.error DbErr.locked else Except.ok 7)
      7 3 (by omega) (fun i hi => by simp [hi]) (by simp)
    simpa using this
  · have := c6_retry_on_locked_policy.2.1 Nat
      (fun i => if i < 2 then Except.error DbErr.locked
        else Except.error (DbErr.other 5))
      5 2 (by omega) (fun i hi => by simp [hi]) (by simp)
    simpa using this

section ClaimC7

/-- C7: `record_turn` is idempotent — starting from a table with no row for
`(game_id, turn_number)`, a first call succeeds and inserts the row, and a
second call with the same key succeeds as a no-op, leaving exactly one row
for that key. -/
theorem c7_record_turn_idempotent (game_id turn_number : Nat)
    (p1 p2 : String) (t : TurnsTable)
    (h : turnRowCount game_id turn_number t = 0) :
    (record_turn game_id turn_number p1 t).1 = .ok () ∧
    (record_turn game_id turn_number p2
        (record_turn game_id turn_number p1 t).2).1 = .ok () ∧
    (record_turn game_id turn_number p2
        (record_turn game_id turn_number p1 t).2).2
      = (record_turn game_id turn_number p1 t).2 ∧
    turnRowCount game_id turn_number
        (record_turn game_id turn_number p1 t).2 = 1 := by
  have hnone : ∀ r ∈ t.rows,
      ¬ (r.game_id == game_id && r.turn_number == turn_number) = true := by
    intro r hr
    have hfil := List.filter_eq_nil_iff.mp (List.length_eq_zero.mp h)
    exact fun hc => hfil r hr hc
  have hany : t.rows.any
      (fun r => r.game_id == game_id && r.turn_number == turn_number)
        = false := by
    by_contra hc
    rw [Bool.not_eq_false, List.any_eq_true] at hc
    obtain ⟨r, hr, hp⟩ := hc
    exact hnone r hr hp
  refine ⟨?_, ?_, ?_, ?_⟩
  · simp [record_turn, hany]
  · simp [record_turn, hany]
  · simp [record_turn, hany, List.any_append]
  · have hfil : t.rows.filter
        (fun r => r.game_id == game_id && r.turn_number == turn_number)
          = [] := List.length_eq_zero.mp h
    simp [record_turn, hany, turnRowCount, List.filter_append, hfil]

end ClaimC7

section ClaimC1

/-- C1 is violated by the code: `Game::result` passes the games-table rowid
returned by `create_game` as the `game_number` argument of
`update_game_result`, so on a fresh database the row created for
(matchup 1, game number 0) gets rowid 1, the UPDATE keys on
`game_number = 1`, matches nothing, and the created row's winner is still
`pending` after the match finished with Player1Win (the claim requires
`player_a`). -/
theorem c1_update_misses_created_row :
    (result_persist_flow 1 0 42 GameResult.Player1Win GamesTable.empty).rows
      = [⟨1, 1, 0, "pending", 42⟩] ∧
    winnerString GameResult.Player1Win = "player_a" := by
  constructor <;> rfl

end ClaimC1

/-- Witness for C7 on a fresh turns table. -/
theorem c7_witness :
    turnRowCount 5 0 ⟨[], 1⟩ = 0 ∧
    (record_turn 5 0 "a.svg" ⟨[], 1⟩).1 = .ok () ∧
    (record_turn 5 0 "b.svg" (record_turn 5 0 "a.svg" ⟨[], 1⟩).2).1
      = .ok () ∧
    (record_turn 5 0 "b.svg" (record_turn 5 0 "a.svg" ⟨[], 1⟩).2).2
      = (record_turn 5 0 "a.svg" ⟨[], 1⟩).2 ∧
    turnRowCount 5 0 (record_turn 5 0 "a.svg" ⟨[], 1⟩).2 = 1 := by
  have h0 : turnRowCount 5 0 ⟨[], 1⟩ = 0 := rfl
  have := c7_record_turn_idempotent 5 0 "a.svg" "b.svg" ⟨[], 1⟩ h0
  exact ⟨h0, this.1, this.2.1, this.2.2.1, this.2.2.2⟩

section ClaimC4

/-- C4: when the acting competitor returns a choice index outside the range
of the offered move list, the turn phase returns successfully (the match
continues) having applied exactly one point of damage to the actor: its
health drops by exactly 1 (it is at least 1 in a running game, since
`check_game_over` would have ended the game at 0), its position, max
health, power, the opponent, the hazards and the oracle environment are
all unchanged — no movement, no node effect and no fight happen. -/
theorem c4_invalid_choice_self_damage (m : GameMap)
    (player choice_index : Nat) (s : GameState) (env : Env)
    (hrange : (get_available_moves m player s).internal_choices.length
        ≤ choice_index)
    (hhealth : 1 ≤ (s.players.get player).health) :
    player_turn_phase m player choice_index s env
        = .ok (damage_player player s, env) ∧
    ((damage_player player s).players.get player).health + 1
        = (s.players.get player).health ∧
    ((damage_player player s).players.get player).max_health
        = (s.players.get player).max_health ∧
    ((damage_player player s).players.get player).power
        = (s.players.get player).power ∧
    (damage_player player s).players.get (1 - player)
        = s.players.get (1 - player) ∧
    (damage_player player s).player_positions = s.player_positions ∧
    (damage_player player s).enemies = s.enemies ∧
    (damage_player player s).enemy_positions = s.enemy_positions := by
  have hget : (get_available_moves m player s).internal_choices.get?
      choice_index = none := List.get?_eq_none.mpr hrange
  refine ⟨?_, ?_, ?_, ?_, ?_, ?_, ?_, ?_⟩
  · simp only [player_turn_phase, hget]
  · simp only [damage_player, Pair.get_set_same]
    omega
  · simp only [damage_player, Pair.get_set_same]
  · simp only [damage_player, Pair.get_set_same]
  · simp only [damage_player, Pair.get_set_other]
  · rfl
  · rfl
  · rfl

/-- Witness for C4: a competitor on an edgeless single-node board returning
choice index 0 (the offered list is empty) takes one damage and nothing
else changes. -/
theorem c4_witness :
    player_turn_phase ⟨[MapNodeType.Normal], []⟩ 0 0
        ⟨⟨⟨3, 3, 5⟩, ⟨3, 3, 5⟩⟩, ⟨0, 0⟩, ⟨⟨1, 1, 2⟩, ⟨1, 1, 2⟩⟩, ⟨0, 0⟩⟩
        ⟨[], [], []⟩
      = .ok (damage_player 0
          ⟨⟨⟨3, 3, 5⟩, ⟨3, 3, 5⟩⟩, ⟨0, 0⟩, ⟨⟨1, 1, 2⟩, ⟨1, 1, 2⟩⟩, ⟨0, 0⟩⟩,
        ⟨[], [], []⟩) ∧
    ((damage_player 0
        ⟨⟨⟨3, 3, 5⟩, ⟨3, 3, 5⟩⟩, ⟨0, 0⟩, ⟨⟨1, 1, 2⟩, ⟨1, 1, 2⟩⟩,
          ⟨0, 0⟩⟩).players.get 0).health + 1 = 3 :=
  ⟨(c4_invalid_choice_self_damage ⟨[MapNodeType.Normal], []⟩ 0 0
      ⟨⟨⟨3, 3, 5⟩, ⟨3, 3, 5⟩⟩, ⟨0, 0⟩, ⟨⟨1, 1, 2⟩, ⟨1, 1, 2⟩⟩, ⟨0, 0⟩⟩
      ⟨[], [], []⟩ (by decide) (by decide)).1,
   (c4_invalid_choice_self_damage ⟨[MapNodeType.Normal], []⟩ 0 0
      ⟨⟨⟨3, 3, 5⟩, ⟨3, 3, 5⟩⟩, ⟨0, 0⟩, ⟨⟨1, 1, 2⟩, ⟨1, 1, 2⟩⟩, ⟨0, 0⟩⟩
      ⟨[], [], []⟩ (by decide) (by decide)).2.1⟩

end ClaimC4

section ClaimC8

/-- A single health-affecting operation of the match state machine: a heal,
a damage, or a gamble with the submission's response and the raw roll. -/
inductive LifeOp where
  | heal
  | damage
  | gamble (resp : GambleChoices) (roll : Nat)
deriving DecidableEq, Repr

/-- Apply one operation to the acting player's slot through the source
handlers (the gamble handler is run on a one-shot oracle holding the
response and the roll). -/
def applyLifeOp (player : Nat) (s : GameState) : LifeOp → GameState
  | .heal => heal_player player s
  | .damage => damage_player player s
  | .gamble resp roll =>
    (handle_gamble player s ⟨[roll], [resp], []⟩).1

/-- Apply a sequence of heal/damage/gamble operations. -/
def applyLifeOps (player : Nat) (s : GameState) (ops : List LifeOp) :
    GameState :=
  ops.foldl (applyLifeOp player) s

/-- Any single operation leaves the acting player's max health unchanged
and keeps health at or below max health. -/
theorem applyLifeOp_health_invariant (player : Nat) (s : GameState)
    (op : LifeOp)
    (h : (s.players.get player).health ≤ (s.players.get player).max_health) :
    ((applyLifeOp player s op).players.get player).max_health
        = (s.players.get player).max_health ∧
    ((applyLifeOp player s op).players.get player).health
        ≤ ((applyLifeOp player s op).players.get player).max_health := by
  cases op with
  | heal =>
    simp only [applyLifeOp, heal_player, Pair.get_set_same]
    exact ⟨trivial, min_le_right _ _⟩
  | damage =>
    simp only [applyLifeOp, damage_player, Pair.get_set_same]
    refine ⟨trivial, ?_⟩
    omega
  | gamble resp roll =>
    cases resp with
    | Skip =>
      simp only [applyLifeOp, handle_gamble, Env.nextGamble, rngNext]
      exact ⟨trivial, h⟩
    | Power =>
      simp only [applyLifeOp, handle_gamble, Env.nextGamble, rngNext,
        Pair.get_set_same]
      exact ⟨trivial, h⟩
    | Health =>
      simp only [applyLifeOp, handle_gamble, Env.nextGamble, rngNext,
        Pair.get_set_same]
      exact ⟨trivial, min_le_right _ _⟩

/-- C8: for every competitor state with health at most max health, the
invariant `health ≤ max-health` (health is a natural number, so damage
saturates at 0 and health is never negative) is preserved: healing sets
health to `min (health + 1) max`, damage sets it to `health - 1`
(saturating), a health gamble re-caps its outcome at max health, and hence
any sequence of heal/damage/gamble operations keeps
`0 ≤ health ≤ max-health`. -/
theorem c8_health_invariant (player : Nat) (s : GameState)
    (ops : List LifeOp)
    (h : (s.players.get player).health ≤ (s.players.get player).max_health) :
    (((heal_player player s).players.get player).health
        = min ((s.players.get player).health + 1)
            (s.players.get player).max_health) ∧
    (((damage_player player s).players.get player).health
        = (s.players.get player).health - 1) ∧
    (∀ resp roll,
      ((applyLifeOp player s (.gamble resp roll)).players.get player).health
        ≤ (s.players.get player).max_health) ∧
    ((applyLifeOps player s ops).players.get player).health
        ≤ ((applyLifeOps player s ops).players.get player).max_health := by
  refine ⟨?_, ?_, ?_, ?_⟩
  · simp [heal_player, Pair.get_set_same]
  · simp [damage_player, Pair.get_set_same]
  · intro resp roll
    have h2 := applyLifeOp_health_invariant player s (.gamble resp roll) h
    omega
  · induction ops generalizing s with
    | nil => simpa [applyLifeOps] using h
    | cons op rest ih =>
      have h2 := applyLifeOp_health_invariant player s op h
      have h3 : ((applyLifeOp player s op).players.get player).health
          ≤ ((applyLifeOp player s op).players.get player).max_health :=
        h2.2
      simpa [applyLifeOps] using ih (applyLifeOp player s op) h3

/-- Witness for C8: from health 2 of max 3, the sequence heal, health-gamble
doubling, damage ends with health within max health. -/
theorem c8_witness :
    ((applyLifeOps 0
        ⟨⟨⟨2, 3, 5⟩, ⟨3, 3, 5⟩⟩, ⟨0, 1⟩, ⟨⟨1, 1, 2⟩, ⟨1, 1, 2⟩⟩, ⟨2, 3⟩⟩
        [.heal, .gamble .Health 15, .damage]).players.get 0).health
      ≤ ((applyLifeOps 0
        ⟨⟨⟨2, 3, 5⟩, ⟨3, 3, 5⟩⟩, ⟨0, 1⟩, ⟨⟨1, 1, 2⟩, ⟨1, 1, 2⟩⟩, ⟨2, 3⟩⟩
        [.heal, .gamble .Health 15, .damage]).players.get 0).max_health :=
  (c8_health_invariant 0
    ⟨⟨⟨2, 3, 5⟩, ⟨3, 3, 5⟩⟩, ⟨0, 1⟩, ⟨⟨1, 1, 2⟩, ⟨1, 1, 2⟩⟩, ⟨2, 3⟩⟩
    [.heal, .gamble .Health 15, .damage] (by decide)).2.2.2

end ClaimC8

section ClaimC5

/-- A uniform selection from a list yields a member of the list. -/
theorem rngPick_mem {α : Type} (l : List α) (rng rng2 : Rng) (x : α)
    (h : rngPick l rng = (some x, rng2)) : x ∈ l := by
  unfold rngPick at h
  split at h
  · simp at h
  · simp only [Prod.mk.injEq] at h
    exact List.get?_mem h.1

/-- A successful `Game::get_random_empty_node` call yields a node of the
map that is unoccupied (not any of the four current positions) and is not
the Teleport node, and consumes no submission responses. -/
theorem game_random_empty_node_ok (m : GameMap) (s : GameState) (env : Env)
    (nd : Nat) (env2 : Env)
    (h : game_random_empty_node m s env = .ok (nd, env2)) :
    nd < m.nodes.length ∧ nd ∉ blockedPositions s ∧
    m.get_node_type nd ≠ some MapNodeType.Teleport ∧
    env2.gambles = env.gambles ∧ env2.fights = env.fights := by
  unfold game_random_empty_node at h
  cases hp : m.get_random_empty_node (blockedPositions s) env.rng with
  | mk o rng =>
    rw [hp] at h
    cases o with
    | none => simp at h
    | some nd2 =>
      simp only [Except.ok.injEq, Prod.mk.injEq] at h
      obtain ⟨hnd, henv⟩ := h
      subst hnd
      have hmem := rngPick_mem _ _ _ _ hp
      simp only [GameMap.node_indices, List.mem_filter, List.mem_range,
        Bool.and_eq_true, Bool.not_eq_true'] at hmem
      obtain ⟨hlt, hblk, htel⟩ := hmem
      refine ⟨hlt, ?_, ?_, ?_, ?_⟩
      · intro hc
        have : (blockedPositions s).contains nd2 = true := by
          simpa using hc
        rw [this] at hblk
        exact absurd hblk (by simp)
      · intro hc
        simp [hc] at htel
      · rw [← henv]
      · rw [← henv]

/-- Of the `n` uniform residues, exactly the first `p` are wins: the
distributional content of `random_ratio(p, n)`. -/
theorem ratio_filter_card (n p : Nat) (h : p ≤ n) :
    ((Finset.range n).filter (fun r => r % n < p)).card = p := by
  have he : (Finset.range n).filter (fun r => r % n < p) = Finset.range p := by
    ext r
    simp only [Finset.mem_filter, Finset.mem_range]
    constructor
    · intro ⟨h1, h2⟩
      rwa [Nat.mod_eq_of_lt h1] at h2
    · intro h1
      have h2 : r < n := lt_of_lt_of_le h1 h
      rw [Nat.mod_eq_of_lt h2]
      exact ⟨h2, h1⟩
  rw [he, Finset.card_range]

/-- Writing the other side's slot (`1 - i`) leaves slot `i` unchanged. -/
theorem Pair.get_set_flip {α : Type} (p : Pair α) (i : Nat) (v : α) :
    (p.set (1 - i) v).get i = p.get i := by
  by_cases h : i = 0
  · simp [h, Pair.get, Pair.set]
  · have h1 : 1 - i = 0 := by omega
    simp [h, h1, Pair.get, Pair.set]

/-- The opponent power of a fight, as computed by `handle_fight`
(game.rs:205-217). -/
def opponent_power (s : GameState) (player : Nat) : FightTarget → Nat
  | .Opponent => (s.players.get (1 - player)).power
  | .Enemy idx => (s.enemies.get idx).power

/-- `Game::generate_enemy` always regenerates the hazard slot with
health = max health = 1 and power in [2,7], repositions only that hazard,
and touches neither the players nor their positions. -/
theorem generate_enemy_spec (m : GameMap) (idx : Nat) (s : GameState)
    (env : Env) :
    ((generate_enemy m idx s env).1.enemies.get idx).health = 1 ∧
    ((generate_enemy m idx s env).1.enemies.get idx).max_health = 1 ∧
    2 ≤ ((generate_enemy m idx s env).1.enemies.get idx).power ∧
    ((generate_enemy m idx s env).1.enemies.get idx).power ≤ 7 ∧
    (generate_enemy m idx s env).1.players = s.players ∧
    (generate_enemy m idx s env).1.player_positions = s.player_positions ∧
    (idx = 0 → (generate_enemy m idx s env).1.enemies.b = s.enemies.b) ∧
    (idx ≠ 0 → (generate_enemy m idx s env).1.enemies.a = s.enemies.a) ∧
    (generate_enemy m idx s env).2.gambles = env.gambles ∧
    (generate_enemy m idx s env).2.fights = env.fights := by
  cases henv : env.rng with
  | nil =>
    simp only [generate_enemy, rngRange, rngNext, henv]
    split
    all_goals
      refine ⟨by simp [Pair.get_set_same], by simp [Pair.get_set_same],
        by simp [Pair.get_set_same],
        by simp [Pair.get_set_same]; try omega,
        rfl, rfl, ?_, ?_, rfl, rfl⟩
    all_goals
      intro hidx; simp [hidx, Pair.set]
  | cons k2 r2 =>
    simp only [generate_enemy, rngRange, rngNext, henv]
    split
    all_goals
      refine ⟨by simp [Pair.get_set_same], by simp [Pair.get_set_same],
        by simp [Pair.get_set_same],
        by simp [Pair.get_set_same]; try omega,
        rfl, rfl, ?_, ?_, rfl, rfl⟩
    all_goals
      intro hidx; simp [hidx, Pair.set]

/-- C5: combat resolution.  With initiator power `P` and opponent power
`Q` (positive sum), the fight is decided by the single uniform
`random_ratio(P, P+Q)` draw, whose win set is exactly `P` of the `P+Q`
residues; on a win against a hazard the initiator gains `⌊Q/2⌋` power and
the hazard slot is regenerated with health = max-health = 1 and a fresh
uniformly random power in [2,7]; on a win against the other competitor the
loser takes exactly 1 damage (saturating at 0) and is relocated to a
random empty non-Teleport node; on a loss against either target the
initiator takes exactly 1 damage and is relocated to a random empty
non-Teleport node. -/
theorem c5_combat_resolution (m : GameMap) (player : Nat)
    (target : FightTarget) (s : GameState) (env : Env) (k : Nat) (rng1 : Rng)
    (hrng : env.rng = k :: rng1)
    (hdenom : 0 < (s.players.get player).power
      + opponent_power s player target) :
    rngRatio (s.players.get player).power
        ((s.players.get player).power + opponent_power s player target)
        env.rng
      = (some (decide (k % ((s.players.get player).power
          + opponent_power s player target) < (s.players.get player).power)),
         rng1) ∧
    ((Finset.range ((s.players.get player).power
        + opponent_power s player target)).filter
      (fun r => r % ((s.players.get player).power
        + opponent_power s player target) < (s.players.get player).power)).card
      = (s.players.get player).power ∧
    (∀ idx, target = .Enemy idx →
      k % ((s.players.get player).power + opponent_power s player target)
        < (s.players.get player).power →
      (∀ e, handle_fight m player target s env ≠ .error e) ∧
      ∀ b s2 env2, handle_fight m player target s env = .ok (b, s2, env2) →
        b = true ∧
        (s2.players.get player).power
          = (s.players.get player).power + (s.enemies.get idx).power / 2 ∧
        (s2.players.get player).health = (s.players.get player).health ∧
        (s2.enemies.get idx).health = 1 ∧
        (s2.enemies.get idx).max_health = 1 ∧
        2 ≤ (s2.enemies.get idx).power ∧ (s2.enemies.get idx).power ≤ 7 ∧
        s2.player_positions = s.player_positions) ∧
    (target = .Opponent →
      k % ((s.players.get player).power + opponent_power s player target)
        < (s.players.get player).power →
      ∀ b s2 env2, handle_fight m player target s env = .ok (b, s2, env2) →
        b = true ∧
        (s2.players.get (1 - player)).health
          = (s.players.get (1 - player)).health - 1 ∧
        (s2.players.get (1 - player)).power
          = (s.players.get (1 - player)).power ∧
        s2.players.get player = s.players.get player ∧
        s2.player_positions.get player = s.player_positions.get player ∧
        s2.player_positions.get (1 - player) ∉ blockedPositions s ∧
        m.get_node_type (s2.player_positions.get (1 - player))
          ≠ some MapNodeType.Teleport ∧
        s2.enemies = s.enemies ∧ s2.enemy_positions = s.enemy_positions) ∧
    (¬ k % ((s.players.get player).power + opponent_power s player target)
        < (s.players.get player).power →
      ∀ b s2 env2, handle_fight m player target s env = .ok (b, s2, env2) →
        b = false ∧
        (s2.players.get player).health
          = (s.players.get player).health - 1 ∧
        (s2.players.get player).power = (s.players.get player).power ∧
        s2.players.get (1 - player) = s.players.get (1 - player) ∧
        s2.player_positions.get player ∉ blockedPositions s ∧
        m.get_node_type (s2.player_positions.get player)
          ≠ some MapNodeType.Teleport ∧
        s2.enemies = s.enemies ∧ s2.enemy_positions = s.enemy_positions) := by
  have hne0 : (s.players.get player).power + opponent_power s player target
      ≠ 0 := by omega
  refine ⟨?_, ratio_filter_card _ _ (by omega), ?_, ?_, ?_⟩
  · rw [hrng]
    simp [rngRatio, rngNext, hne0]
  · intro idx htgt hwin
    subst htgt
    simp only [opponent_power] at hdenom hwin hne0
    have hne : (s.players.get player).power + (s.enemies.get idx).power
        ≠ 0 := hne0
    constructor
    · intro e hok
      simp only [handle_fight, hrng, rngRatio, rngNext, if_neg hne, hwin,
        decide_True, if_true] at hok
      exact absurd hok (by simp)
    · intro b s2 env2 hok
      simp only [handle_fight, hrng, rngRatio, rngNext, if_neg hne, hwin,
        decide_True, if_true, Except.ok.injEq, Prod.mk.injEq] at hok
      obtain ⟨hb, hs2, henv2⟩ := hok
      subst hb
      have hs := generate_enemy_spec m idx
        (GameState.mk
          (s.players.set player
            (PlayerState.mk (s.players.get player).health
              (s.players.get player).max_health
              ((s.players.get player).power + (s.enemies.get idx).power / 2)))
          s.player_positions s.enemies s.enemy_positions)
        (Env.mk rng1 env.gambles env.fights)
      subst hs2 henv2
      obtain ⟨h1, h2, h3, h4, h5, h6, _, _, _, _⟩ := hs
      refine ⟨rfl, ?_, ?_, h1, h2, h3, h4, h6⟩
      · rw [h5]
        simp [Pair.get_set_same]
      · rw [h5]
        simp [Pair.get_set_same]
  · intro htgt hwin
    subst htgt
    simp only [opponent_power] at hdenom hwin hne0
    have hne : (s.players.get player).power
        + (s.players.get (1 - player)).power ≠ 0 := hne0
    intro b s2 env2 hok
    simp only [handle_fight, hrng, rngRatio, rngNext, if_neg hne, hwin,
      decide_True, if_true] at hok
    rcases hre : game_random_empty_node m (damage_player (1 - player) s)
        (Env.mk rng1 env.gambles env.fights) with e | ⟨nd, env3⟩
    · rw [hre] at hok
      exact absurd hok (by simp)
    · rw [hre] at hok
      simp only [Except.ok.injEq, Prod.mk.injEq] at hok
      obtain ⟨hb, hs2, henv2⟩ := hok
      subst hb hs2 henv2
      have hprops := game_random_empty_node_ok m (damage_player (1 - player) s)
        (Env.mk rng1 env.gambles env.fights) nd env3 hre
      have hblk : blockedPositions (damage_player (1 - player) s)
          = blockedPositions s := rfl
      rw [hblk] at hprops
      refine ⟨rfl, ?_, ?_, ?_, ?_, ?_, ?_, rfl, rfl⟩
      · simp [damage_player, Pair.get_set_same]
      · simp [damage_player, Pair.get_set_same]
      · simp [damage_player, Pair.get_set_flip]
      · simp [damage_player, Pair.get_set_flip]
      · simpa [Pair.get_set_same] using hprops.2.1
      · simpa [Pair.get_set_same] using hprops.2.2.1
  · intro hlose
    intro b s2 env2 hok
    cases target with
    | Opponent =>
      simp only [opponent_power] at hdenom hlose hne0
      have hne : (s.players.get player).power
          + (s.players.get (1 - player)).power ≠ 0 := hne0
      simp only [handle_fight, hrng, rngRatio, rngNext, if_neg hne, hlose,
        decide_False, if_false, Bool.false_eq_true, reduceIte] at hok
      rcases hre : game_random_empty_node m (damage_player player s)
          (Env.mk rng1 env.gambles env.fights) with e | ⟨nd, env3⟩
      · rw [hre] at hok
        exact absurd hok (by simp)
      · rw [hre] at hok
        simp only [Except.ok.injEq, Prod.mk.injEq] at hok
        obtain ⟨hb, hs2, henv2⟩ := hok
        subst hb hs2 henv2
        have hprops := game_random_empty_node_ok m (damage_player player s)
          (Env.mk rng1 env.gambles env.fights) nd env3 hre
        have hblk : blockedPositions (damage_player player s)
            = blockedPositions s := rfl
        rw [hblk] at hprops
        refine ⟨rfl, ?_, ?_, ?_, ?_, ?_, rfl, rfl⟩
        · simp [damage_player, Pair.get_set_same]
        · simp [damage_player, Pair.get_set_same]
        · simp [damage_player, Pair.get_set_other]
        · simpa [Pair.get_set_same] using hprops.2.1
        · simpa [Pair.get_set_same] using hprops.2.2.1
    | Enemy idx =>
      simp only [opponent_power] at hdenom hlose hne0
      have hne : (s.players.get player).power
          + (s.enemies.get idx).power ≠ 0 := hne0
      simp only [handle_fight, hrng, rngRatio, rngNext, if_neg hne, hlose,
        decide_False, if_false, Bool.false_eq_true, reduceIte] at hok
      rcases hre : game_random_empty_node m (damage_player player s)
          (Env.mk rng1 env.gambles env.fights) with e | ⟨nd, env3⟩
      · rw [hre] at hok
        exact absurd hok (by simp)
      · rw [hre] at hok
        simp only [Except.ok.injEq, Prod.mk.injEq] at hok
        obtain ⟨hb, hs2, henv2⟩ := hok
        subst hb hs2 henv2
        have hprops := game_random_empty_node_ok m (damage_player player s)
          (Env.mk rng1 env.gambles env.fights) nd env3 hre
        have hblk : blockedPositions (damage_player player s)
            = blockedPositions s := rfl
        rw [hblk] at hprops
        refine ⟨rfl, ?_, ?_, ?_, ?_, ?_, rfl, rfl⟩
        · simp [damage_player, Pair.get_set_same]
        · simp [damage_player, Pair.get_set_same]
        · simp [damage_player, Pair.get_set_other]
        · simpa [Pair.get_set_same] using hprops.2.1
        · simpa [Pair.get_set_same] using hprops.2.2.1

/-- Witness for C5: a player of power 5 beating the first hazard (power 2)
on draw 0 gains ⌊2/2⌋ = 1 power, and the regenerated hazard has power 6
(from the next draw), within [2,7]. -/
theorem c5_witness :
    handle_fight ⟨[MapNodeType.Normal, .Normal, .Normal], []⟩ 0 (.Enemy 0)
        ⟨⟨⟨3, 3, 5⟩, ⟨3, 3, 4⟩⟩, ⟨0, 1⟩, ⟨⟨1, 1, 2⟩, ⟨1, 1, 3⟩⟩, ⟨2, 2⟩⟩
        ⟨[0, 4], [], []⟩
      = .ok (true,
          ⟨⟨⟨3, 3, 6⟩, ⟨3, 3, 4⟩⟩, ⟨0, 1⟩, ⟨⟨1, 1, 6⟩, ⟨1, 1, 3⟩⟩, ⟨0, 2⟩⟩,
          ⟨[], [], []⟩) ∧
    ((⟨⟨⟨3, 3, 6⟩, ⟨3, 3, 4⟩⟩, ⟨0, 1⟩, ⟨⟨1, 1, 6⟩, ⟨1, 1, 3⟩⟩,
        ⟨0, 2⟩⟩ : GameState).players.get 0).power = 5 + 2 / 2 ∧
    2 ≤ ((⟨⟨⟨3, 3, 6⟩, ⟨3, 3, 4⟩⟩, ⟨0, 1⟩, ⟨⟨1, 1, 6⟩, ⟨1, 1, 3⟩⟩,
        ⟨0, 2⟩⟩ : GameState).enemies.get 0).power ∧
    ((⟨⟨⟨3, 3, 6⟩, ⟨3, 3, 4⟩⟩, ⟨0, 1⟩, ⟨⟨1, 1, 6⟩, ⟨1, 1, 3⟩⟩,
        ⟨0, 2⟩⟩ : GameState).enemies.get 0).power ≤ 7 := by
  have h := (c5_combat_resolution ⟨[MapNodeType.Normal, .Normal, .Normal], []⟩
    0 (.Enemy 0)
    ⟨⟨⟨3, 3, 5⟩, ⟨3, 3, 4⟩⟩, ⟨0, 1⟩, ⟨⟨1, 1, 2⟩, ⟨1, 1, 3⟩⟩, ⟨2, 2⟩⟩
    ⟨[0, 4], [], []⟩ 0 [4] rfl (by decide)).2.2.1 0 rfl (by decide)
  have h2 := h.2 true
    ⟨⟨⟨3, 3, 6⟩, ⟨3, 3, 4⟩⟩, ⟨0, 1⟩, ⟨⟨1, 1, 6⟩, ⟨1, 1, 3⟩⟩, ⟨0, 2⟩⟩
    ⟨[], [], []⟩ rfl
  exact ⟨rfl, h2.2.1, h2.2.2.2.2.2.1, h2.2.2.2.2.2.2.1⟩

end ClaimC5

section ClaimC10

/-- The hazard-power invariant: both hazard slots hold a power in [2,7]. -/
def enemy_powers_valid (s : GameState) : Prop :=
  2 ≤ s.enemies.a.power ∧ s.enemies.a.power ≤ 7 ∧
  2 ≤ s.enemies.b.power ∧ s.enemies.b.power ≤ 7

/-- The only error `Game::get_random_empty_node` produces is the
no-empty-nodes error. -/
theorem game_random_empty_node_err (m : GameMap) (s : GameState) (env : Env)
    (e : GameErr) (h : game_random_empty_node m s env = .error e) :
    e = .noEmptyNode := by
  unfold game_random_empty_node at h
  cases hp : m.get_random_empty_node (blockedPositions s) env.rng with
  | mk o rng =>
    rw [hp] at h
    cases o with
    | none => simpa using h.symm
    | some nd => simp at h

/-- Regenerating either hazard slot preserves the hazard-power
invariant. -/
theorem generate_enemy_valid (m : GameMap) (idx : Nat) (s : GameState)
    (env : Env) (h : enemy_powers_valid s) :
    enemy_powers_valid (generate_enemy m idx s env).1 := by
  have hs := generate_enemy_spec m idx s env
  obtain ⟨_, _, h3, h4, _, _, h7, h8, _, _⟩ := hs
  by_cases hidx : idx = 0
  · subst hidx
    have hb := h7 rfl
    refine ⟨?_, ?_, ?_, ?_⟩
    · simpa [Pair.get] using h3
    · simpa [Pair.get] using h4
    · rw [hb]; exact h.2.2.1
    · rw [hb]; exact h.2.2.2
  · have ha := h8 hidx
    refine ⟨?_, ?_, ?_, ?_⟩
    · rw [ha]; exact h.1
    · rw [ha]; exact h.2.1
    · simpa [Pair.get, hidx] using h3
    · simpa [Pair.get, hidx] using h4

/-- Every successful fight preserves the hazard-power invariant: hazard
powers change only through regeneration. -/
theorem handle_fight_preserves_enemy_powers (m : GameMap) (player : Nat)
    (target : FightTarget) (s : GameState) (env : Env) (b : Bool)
    (s2 : GameState) (env2 : Env) (h : enemy_powers_valid s)
    (hok : handle_fight m player target s env = .ok (b, s2, env2)) :
    enemy_powers_valid s2 := by
  by_cases hden : (s.players.get player).power
      + opponent_power s player target = 0
  · exfalso
    cases target with
    | Opponent =>
      simp only [opponent_power] at hden
      simp only [handle_fight, rngRatio, hden, if_pos, reduceIte] at hok
      simp [hden] at hok
    | Enemy idx =>
      simp only [opponent_power] at hden
      simp only [handle_fight, rngRatio, hden, if_pos, reduceIte] at hok
      simp [hden] at hok
  · rcases hnx : rngNext env.rng with ⟨k, rng1⟩
    cases target with
    | Opponent =>
      simp only [opponent_power] at hden
      by_cases hw : k % ((s.players.get player).power
          + (s.players.get (1 - player)).power) < (s.players.get player).power
      · simp only [handle_fight, rngRatio, if_neg hden, hnx, hw, decide_True,
          if_true] at hok
        rcases hre : game_random_empty_node m (damage_player (1 - player) s)
            (Env.mk rng1 env.gambles env.fights) with e | ⟨nd, env3⟩
        · rw [hre] at hok
          exact absurd hok (by simp)
        · rw [hre] at hok
          simp only [Except.ok.injEq, Prod.mk.injEq] at hok
          obtain ⟨_, hs2, _⟩ := hok
          subst hs2
          exact h
      · simp only [handle_fight, rngRatio, if_neg hden, hnx, hw, decide_False,
          Bool.false_eq_true, reduceIte] at hok
        rcases hre : game_random_empty_node m (damage_player player s)
            (Env.mk rng1 env.gambles env.fights) with e | ⟨nd, env3⟩
        · rw [hre] at hok
          exact absurd hok (by simp)
        · rw [hre] at hok
          simp only [Except.ok.injEq, Prod.mk.injEq] at hok
          obtain ⟨_, hs2, _⟩ := hok
          subst hs2
          exact h
    | Enemy idx =>
      simp only [opponent_power] at hden
      by_cases hw : k % ((s.players.get player).power
          + (s.enemies.get idx).power) < (s.players.get player).power
      · simp only [handle_fight, rngRatio, if_neg hden, hnx, hw, decide_True,
          if_true, Except.ok.injEq, Prod.mk.injEq] at hok
        obtain ⟨_, hs2, _⟩ := hok
        subst hs2
        exact generate_enemy_valid m idx _ _ (by exact h)
      · simp only [handle_fight, rngRatio, if_neg hden, hnx, hw, decide_False,
          Bool.false_eq_true, reduceIte] at hok
        rcases hre : game_random_empty_node m (damage_player player s)
            (Env.mk rng1 env.gambles env.fights) with e | ⟨nd, env3⟩
        · rw [hre] at hok
          exact absurd hok (by simp)
        · rw [hre] at hok
          simp only [Except.ok.injEq, Prod.mk.injEq] at hok
          obtain ⟨_, hs2, _⟩ := hok
          subst hs2
          exact h

/-- C10: every hazard is created and regenerated with power in [2,7] and
that power is only ever changed by regeneration (heal/damage/gamble do not
touch the hazard slots, and fights preserve the invariant), so under the
invariant every fight against a hazard has a positive win-draw denominator
and the ratio draw never panics; no such lower bound holds for
competitor-vs-competitor fights: both powers reach 0 after three
power-halving gambles from the initial power 5, and the opponent fight then
fails with the zero-denominator panic. -/
theorem c10_hazard_denominator_positive :
    (∀ (m : GameMap) (idx : Nat) (s : GameState) (env : Env),
      2 ≤ ((generate_enemy m idx s env).1.enemies.get idx).power ∧
      ((generate_enemy m idx s env).1.enemies.get idx).power ≤ 7) ∧
    (∀ (m : GameMap) (idx : Nat) (s : GameState) (env : Env),
      enemy_powers_valid s →
      enemy_powers_valid (generate_enemy m idx s env).1) ∧
    (∀ (player : Nat) (s : GameState) (op : LifeOp),
      (applyLifeOp player s op).enemies = s.enemies) ∧
    (∀ (m : GameMap) (player : Nat) (target : FightTarget) (s : GameState)
      (env : Env) (b : Bool) (s2 : GameState) (env2 : Env),
      enemy_powers_valid s →
      handle_fight m player target s env = .ok (b, s2, env2) →
      enemy_powers_valid s2) ∧
    (∀ (m : GameMap) (player idx : Nat) (s : GameState) (env : Env),
      enemy_powers_valid s →
      0 < (s.players.get player).power + (s.enemies.get idx).power ∧
      handle_fight m player (.Enemy idx) s env ≠ .error .zeroDenominator) ∧
    (((applyLifeOps 1 (applyLifeOps 0
        ⟨⟨⟨3, 3, 5⟩, ⟨3, 3, 5⟩⟩, ⟨0, 1⟩, ⟨⟨1, 1, 2⟩, ⟨1, 1, 3⟩⟩, ⟨2, 3⟩⟩
        [.gamble .Power 5, .gamble .Power 5, .gamble .Power 5])
        [.gamble .Power 5, .gamble .Power 5, .gamble .Power 5]).players.get
        0).power = 0 ∧
     ((applyLifeOps 1 (applyLifeOps 0
        ⟨⟨⟨3, 3, 5⟩, ⟨3, 3, 5⟩⟩, ⟨0, 1⟩, ⟨⟨1, 1, 2⟩, ⟨1, 1, 3⟩⟩, ⟨2, 3⟩⟩
        [.gamble .Power 5, .gamble .Power 5, .gamble .Power 5])
        [.gamble .Power 5, .gamble .Power 5, .gamble .Power 5]).players.get
        1).power = 0 ∧
     handle_fight ⟨[MapNodeType.Normal], []⟩ 0 .Opponent
        (applyLifeOps 1 (applyLifeOps 0
          ⟨⟨⟨3, 3, 5⟩, ⟨3, 3, 5⟩⟩, ⟨0, 1⟩, ⟨⟨1, 1, 2⟩, ⟨1, 1, 3⟩⟩, ⟨2, 3⟩⟩
          [.gamble .Power 5, .gamble .Power 5, .gamble .Power 5])
          [.gamble .Power 5, .gamble .Power 5, .gamble .Power 5])
        ⟨[0], [], []⟩
      = .error .zeroDenominator) := by
  refine ⟨?_, ?_, ?_, ?_, ?_, ?_, ?_, ?_⟩
  · intro m idx s env
    exact ⟨(generate_enemy_spec m idx s env).2.2.1,
      (generate_enemy_spec m idx s env).2.2.2.1⟩
  · intro m idx s env h
    exact generate_enemy_valid m idx s env h
  · intro player s op
    cases op with
    | gamble resp roll => cases resp <;> rfl
    | heal => rfl
    | damage => rfl
  · intro m player target s env b s2 env2 h hok
    exact handle_fight_preserves_enemy_powers m player target s env b s2 env2
      h hok
  · intro m player idx s env h
    have hq : 2 ≤ (s.enemies.get idx).power := by
      by_cases hidx : idx = 0
      · simpa [Pair.get, hidx] using h.1
      · simpa [Pair.get, hidx] using h.2.2.1
    refine ⟨by omega, ?_⟩
    intro hc
    have hden : (s.players.get player).power + (s.enemies.get idx).power
        ≠ 0 := by omega
    rcases hnx : rngNext env.rng with ⟨k, rng1⟩
    by_cases hw : k % ((s.players.get player).power
        + (s.enemies.get idx).power) < (s.players.get player).power
    · simp only [handle_fight, rngRatio, if_neg hden, hnx, hw, decide_True,
        if_true] at hc
      exact absurd hc (by simp)
    · simp only [handle_fight, rngRatio, if_neg hden, hnx, hw, decide_False,
        Bool.false_eq_true, reduceIte] at hc
      rcases hre : game_random_empty_node m (damage_player player s)
          (Env.mk rng1 env.gambles env.fights) with e | ⟨nd, env3⟩
      · rw [hre] at hc
        have he := game_random_empty_node_err m (damage_player player s)
          (Env.mk rng1 env.gambles env.fights) e hre
        simp only [Except.error.injEq] at hc
        rw [hc] at he
        exact absurd he (by simp)
      · rw [hre] at hc
        exact absurd hc (by simp)
  · rfl
  · rfl
  · rfl

/-- Witness for C10 at a concrete valid state: the first hazard fight has a
positive denominator and does not hit the zero-denominator panic. -/
theorem c10_witness :
    0 < ((⟨⟨⟨3, 3, 5⟩, ⟨3, 3, 4⟩⟩, ⟨0, 1⟩, ⟨⟨1, 1, 2⟩, ⟨1, 1, 3⟩⟩,
        ⟨2, 2⟩⟩ : GameState).players.get 0).power
      + ((⟨⟨⟨3, 3, 5⟩, ⟨3, 3, 4⟩⟩, ⟨0, 1⟩, ⟨⟨1, 1, 2⟩, ⟨1, 1, 3⟩⟩,
        ⟨2, 2⟩⟩ : GameState).enemies.get 0).power ∧
    handle_fight ⟨[MapNodeType.Normal, .Normal, .Normal], []⟩ 0 (.Enemy 0)
        ⟨⟨⟨3, 3, 5⟩, ⟨3, 3, 4⟩⟩, ⟨0, 1⟩, ⟨⟨1, 1, 2⟩, ⟨1, 1, 3⟩⟩, ⟨2, 2⟩⟩
        ⟨[0, 4], [], []⟩
      ≠ .error .zeroDenominator :=
  c10_hazard_denominator_positive.2.2.2.2.1
    ⟨[MapNodeType.Normal, .Normal, .Normal], []⟩ 0 0
    ⟨⟨⟨3, 3, 5⟩, ⟨3, 3, 4⟩⟩, ⟨0, 1⟩, ⟨⟨1, 1, 2⟩, ⟨1, 1, 3⟩⟩, ⟨2, 2⟩⟩
    ⟨[0, 4], [], []⟩ (by exact ⟨by decide, by decide, by decide, by decide⟩)

end ClaimC10

section ClaimC2

/-- A slot read is one of the two slots. -/
theorem Pair.get_mem_pair {α : Type} (p : Pair α) (i : Nat) :
    p.get i = p.a ∨ p.get i = p.b := by
  unfold Pair.get
  split_ifs <;> simp

/-- Two writes to the same slot collapse to the second. -/
theorem Pair.set_set {α : Type} (p : Pair α) (i : Nat) (v w : α) :
    (p.set i v).set i w = p.set i w := by
  unfold Pair.set
  by_cases h : i = 0 <;> simp [h]

/-- `Game::handle_gamble` changes nothing but the acting player's slot. -/
theorem handle_gamble_frame (player : Nat) (s : GameState) (env : Env) :
    (handle_gamble player s env).1.player_positions = s.player_positions ∧
    (handle_gamble player s env).1.enemies = s.enemies ∧
    (handle_gamble player s env).1.enemy_positions = s.enemy_positions ∧
    (handle_gamble player s env).1.players.get (1 - player)
      = s.players.get (1 - player) := by
  cases hresp : (Env.nextGamble env).1 with
  | Skip => simp [handle_gamble, hresp]
  | Power => simp [handle_gamble, hresp, Pair.get_set_other]
  | Health => simp [handle_gamble, hresp, Pair.get_set_other]

/-- C2 is refuted on this input: player 0 (health 1 of 3) moves onto the
Teleport node 0; the relocation lands on the Healing node 1, and the
player's health rises to 2 — the landing node's heal effect fires, where
the claim requires that no further node effect (no heal) be applied at the
relocation landing node. -/
theorem c2_counterexample_heal_on_landing :
    handle_regular_move
        ⟨[MapNodeType.Teleport, .Healing, .Normal, .Normal], []⟩ 0 2 0
        ⟨⟨⟨1, 3, 5⟩, ⟨3, 3, 4⟩⟩, ⟨2, 3⟩, ⟨⟨1, 1, 2⟩, ⟨1, 1, 3⟩⟩, ⟨3, 3⟩⟩
        ⟨[1, 0], [], []⟩
      = .ok (⟨⟨⟨2, 3, 5⟩, ⟨3, 3, 4⟩⟩, ⟨1, 3⟩, ⟨⟨1, 1, 2⟩, ⟨1, 1, 3⟩⟩,
          ⟨3, 3⟩⟩, ⟨[], [], []⟩) ∧
    (⟨[MapNodeType.Teleport, .Healing, .Normal, .Normal],
        []⟩ : GameMap).get_node_type 1 = some MapNodeType.Healing ∧
    ((⟨⟨⟨2, 3, 5⟩, ⟨3, 3, 4⟩⟩, ⟨1, 3⟩, ⟨⟨1, 1, 2⟩, ⟨1, 1, 3⟩⟩,
        ⟨3, 3⟩⟩ : GameState).players.get 0).health
      = ((⟨⟨⟨1, 3, 5⟩, ⟨3, 3, 4⟩⟩, ⟨2, 3⟩, ⟨⟨1, 1, 2⟩, ⟨1, 1, 3⟩⟩,
        ⟨3, 3⟩⟩ : GameState).players.get 0).health + 1 := by
  refine ⟨rfl, rfl, rfl⟩

/-- C2 as amended: for every turn in which the acting competitor moves onto
the Teleport node and the move resolves successfully, the actor is
relocated (through two random draws, the second of which decides the
landing) to a node that is empty — distinct from the opponent's and both
hazards' positions — and not the Teleport node; the landing node's own
heal or gamble effect IS applied (only teleport chaining is suppressed; a
Normal landing leaves the actor unchanged; a Gamble landing hands the
relocated state to the gamble handler with the submission streams of the
incoming turn intact, only the RNG advanced, so the actor's slot receives
the gamble outcome); and no fight is resolved after the relocation —
the opponent and both hazards are untouched — nor could an occupancy
collision arise, since the landing node is chosen among unoccupied
nodes. -/
theorem c2_teleport_relocation (m : GameMap)
    (player node_from node_to : Nat) (s : GameState) (env : Env)
    (hT : m.get_node_type node_to = some MapNodeType.Teleport) :
    ∀ s2 env2, handle_regular_move m player node_from node_to s env
        = .ok (s2, env2) →
    ∃ landing,
      landing < m.nodes.length ∧
      m.get_node_type landing ≠ some MapNodeType.Teleport ∧
      s2.player_positions.get player = landing ∧
      s2.player_positions.get (1 - player)
        = s.player_positions.get (1 - player) ∧
      landing ≠ s.player_positions.get (1 - player) ∧
      landing ≠ s.enemy_positions.a ∧
      landing ≠ s.enemy_positions.b ∧
      s2.enemies = s.enemies ∧
      s2.enemy_positions = s.enemy_positions ∧
      s2.players.get (1 - player) = s.players.get (1 - player) ∧
      (m.get_node_type landing = some MapNodeType.Healing →
        (s2.players.get player).health
          = min ((s.players.get player).health + 1)
              (s.players.get player).max_health) ∧
      (m.get_node_type landing = some MapNodeType.Normal →
        s2.players.get player = s.players.get player) ∧
      (m.get_node_type landing = some MapNodeType.Gamble →
        ∃ rngG : Rng,
          s2 = (handle_gamble player
              { s with player_positions :=
                  s.player_positions.set player landing }
              { env with rng := rngG }).1 ∧
          env2 = (handle_gamble player
              { s with player_positions :=
                  s.player_positions.set player landing }
              { env with rng := rngG }).2) := by
  intro s2 env2 hok
  simp only [handle_regular_move, hT, handle_node_effect] at hok
  rcases hre1 : game_random_empty_node m
      (GameState.mk s.players (s.player_positions.set player node_to)
        s.enemies s.enemy_positions) env with e | ⟨nd1, env1⟩
  · rw [hre1] at hok
    exact absurd hok (by simp)
  · rw [hre1] at hok
    dsimp only at hok
    rcases hre2 : game_random_empty_node m
        (GameState.mk s.players
          ((s.player_positions.set player node_to).set player nd1)
          s.enemies s.enemy_positions) env1 with e | ⟨nd2, env2x⟩
    · rw [hre2] at hok
      exact absurd hok (by simp)
    · rw [hre2] at hok
      have hp1 := game_random_empty_node_ok m
        (GameState.mk s.players (s.player_positions.set player node_to)
          s.enemies s.enemy_positions) env nd1 env1 hre1
      have hp2 := game_random_empty_node_ok m
        (GameState.mk s.players
          ((s.player_positions.set player node_to).set player nd1)
          s.enemies s.enemy_positions) env1 nd2 env2x hre2
      obtain ⟨hlen, hnb, hntel, hgam2, hfig2⟩ := hp2
      obtain ⟨nt, hgt⟩ : ∃ nt, m.get_node_type nd2 = some nt := by
        unfold GameMap.get_node_type
        exact ⟨m.nodes.get ⟨nd2, hlen⟩, List.get?_eq_get hlen⟩
      have hntne : nt ≠ MapNodeType.Teleport := by
        intro hcc
        apply hntel
        rw [hgt, hcc]
      simp only [blockedPositions, List.mem_cons, List.not_mem_nil,
        or_false] at hnb
      push_neg at hnb
      obtain ⟨hnba, hnbb, hnea, hneb⟩ := hnb
      have hother : ((s.player_positions.set player node_to).set player
          nd1).get (1 - player) = s.player_positions.get (1 - player) := by
        rw [Pair.get_set_other, Pair.get_set_other]
      have hland_ne : nd2 ≠ s.player_positions.get (1 - player) := by
        rcases Pair.get_mem_pair
            ((s.player_positions.set player node_to).set player nd1)
            (1 - player) with hcase | hcase
        · rw [← hother, hcase]; exact hnba
        · rw [← hother, hcase]; exact hnbb
      have henvx : ({ env with rng := env2x.rng } : Env) = env2x := by
        have hg : env2x.gambles = env.gambles := by
          rw [hgam2, hp1.2.2.2.1]
        have hf : env2x.fights = env.fights := by
          rw [hfig2, hp1.2.2.2.2]
        cases env2x
        cases env
        simp_all
      have hsrel : ({ s with player_positions :=
            s.player_positions.set player nd2 } : GameState)
          = GameState.mk s.players
              (((s.player_positions.set player node_to).set player nd1).set
                player nd2) s.enemies s.enemy_positions := by
        simp [Pair.set_set]
      simp only [handle_escape_move, hgt, hntne, ne_eq,
        not_false_iff, if_true, handle_node_effect] at hok
      cases nt with
      | Teleport => exact absurd rfl hntne
      | Healing =>
        simp only [Except.ok.injEq, Prod.mk.injEq] at hok
        obtain ⟨hs2, henv2⟩ := hok
        subst hs2 henv2
        refine ⟨nd2, hlen, hntel, ?_, ?_, hland_ne, hnea, hneb, rfl, rfl,
          ?_, ?_, ?_, ?_⟩
        · simp [heal_player, Pair.get_set_same]
        · simp only [heal_player]
          rw [Pair.get_set_other, Pair.get_set_other, Pair.get_set_other]
        · simp [heal_player, Pair.get_set_other]
        · intro _
          simp [heal_player, Pair.get_set_same]
        · intro hx
          rw [hgt] at hx
          simp at hx
        · intro hx
          rw [hgt] at hx
          simp at hx
      | Normal =>
        simp only [Except.ok.injEq, Prod.mk.injEq] at hok
        obtain ⟨hs2, henv2⟩ := hok
        subst hs2 henv2
        refine ⟨nd2, hlen, hntel, ?_, ?_, hland_ne, hnea, hneb, rfl, rfl,
          rfl, ?_, ?_, ?_⟩
        · simp [Pair.get_set_same]
        · rw [Pair.get_set_other, Pair.get_set_other, Pair.get_set_other]
        · intro hx
          rw [hgt] at hx
          simp at hx
        · intro _
          rfl
        · intro hx
          rw [hgt] at hx
          simp at hx
      | Gamble =>
        simp only [Except.ok.injEq, Prod.mk.injEq] at hok
        obtain ⟨hs2, henv2⟩ := hok
        subst hs2 henv2
        have hfr := handle_gamble_frame player
          (GameState.mk s.players
            ((((s.player_positions.set player node_to).set player nd1).set
              player nd2))
            s.enemies s.enemy_positions) env2x
        obtain ⟨hf1, hf2, hf3, hf4⟩ := hfr
        refine ⟨nd2, hlen, hntel, ?_, ?_, hland_ne, hnea, hneb, hf2, hf3,
          ?_, ?_, ?_, ?_⟩
        · rw [hf1, Pair.get_set_same]
        · rw [hf1, Pair.get_set_other, Pair.get_set_other,
            Pair.get_set_other]
        · rw [hf4]
        · intro hx
          rw [hgt] at hx
          simp at hx
        · intro hx
          rw [hgt] at hx
          simp at hx
        · intro _
          exact ⟨env2x.rng, by rw [henvx, hsrel], by rw [henvx, hsrel]⟩

/-- Witness for the amended C2 on the counterexample scenario. -/
theorem c2_witness :
    ∃ landing,
      landing < (⟨[MapNodeType.Teleport, .Healing, .Normal, .Normal],
          []⟩ : GameMap).nodes.length ∧
      (⟨[MapNodeType.Teleport, .Healing, .Normal, .Normal],
          []⟩ : GameMap).get_node_type landing
        ≠ some MapNodeType.Teleport ∧
      ((⟨⟨⟨2, 3, 5⟩, ⟨3, 3, 4⟩⟩, ⟨1, 3⟩, ⟨⟨1, 1, 2⟩, ⟨1, 1, 3⟩⟩,
          ⟨3, 3⟩⟩ : GameState).player_positions.get 0) = landing ∧
      ((⟨⟨⟨2, 3, 5⟩, ⟨3, 3, 4⟩⟩, ⟨1, 3⟩, ⟨⟨1, 1, 2⟩, ⟨1, 1, 3⟩⟩,
          ⟨3, 3⟩⟩ : GameState).player_positions.get (1 - 0))
        = ((⟨⟨⟨1, 3, 5⟩, ⟨3, 3, 4⟩⟩, ⟨2, 3⟩, ⟨⟨1, 1, 2⟩, ⟨1, 1, 3⟩⟩,
          ⟨3, 3⟩⟩ : GameState).player_positions.get (1 - 0)) ∧
      landing ≠ ((⟨⟨⟨1, 3, 5⟩, ⟨3, 3, 4⟩⟩, ⟨2, 3⟩, ⟨⟨1, 1, 2⟩, ⟨1, 1, 3⟩⟩,
          ⟨3, 3⟩⟩ : GameState).player_positions.get (1 - 0)) ∧
      landing ≠ ((⟨⟨⟨1, 3, 5⟩, ⟨3, 3, 4⟩⟩, ⟨2, 3⟩, ⟨⟨1, 1, 2⟩, ⟨1, 1, 3⟩⟩,
          ⟨3, 3⟩⟩ : GameState).enemy_positions.a) ∧
      landing ≠ ((⟨⟨⟨1, 3, 5⟩, ⟨3, 3, 4⟩⟩, ⟨2, 3⟩, ⟨⟨1, 1, 2⟩, ⟨1, 1, 3⟩⟩,
          ⟨3, 3⟩⟩ : GameState).enemy_positions.b) ∧
      ((⟨⟨⟨2, 3, 5⟩, ⟨3, 3, 4⟩⟩, ⟨1, 3⟩, ⟨⟨1, 1, 2⟩, ⟨1, 1, 3⟩⟩,
          ⟨3, 3⟩⟩ : GameState).enemies)
        = ((⟨⟨⟨1, 3, 5⟩, ⟨3, 3, 4⟩⟩, ⟨2, 3⟩, ⟨⟨1, 1, 2⟩, ⟨1, 1, 3⟩⟩,
          ⟨3, 3⟩⟩ : GameState).enemies) ∧
      ((⟨⟨⟨2, 3, 5⟩, ⟨3, 3, 4⟩⟩, ⟨1, 3⟩, ⟨⟨1, 1, 2⟩, ⟨1, 1, 3⟩⟩,
          ⟨3, 3⟩⟩ : GameState).enemy_positions)
        = ((⟨⟨⟨1, 3, 5⟩, ⟨3, 3, 4⟩⟩, ⟨2, 3⟩, ⟨⟨1, 1, 2⟩, ⟨1, 1, 3⟩⟩,
          ⟨3, 3⟩⟩ : GameState).enemy_positions) ∧
      ((⟨⟨⟨2, 3, 5⟩, ⟨3, 3, 4⟩⟩, ⟨1, 3⟩, ⟨⟨1, 1, 2⟩, ⟨1, 1, 3⟩⟩,
          ⟨3, 3⟩⟩ : GameState).players.get (1 - 0))
        = ((⟨⟨⟨1, 3, 5⟩, ⟨3, 3, 4⟩⟩, ⟨2, 3⟩, ⟨⟨1, 1, 2⟩, ⟨1, 1, 3⟩⟩,
          ⟨3, 3⟩⟩ : GameState).players.get (1 - 0)) ∧
      ((⟨[MapNodeType.Teleport, .Healing, .Normal, .Normal],
          []⟩ : GameMap).get_node_type landing = some MapNodeType.Healing →
        ((⟨⟨⟨2, 3, 5⟩, ⟨3, 3, 4⟩⟩, ⟨1, 3⟩, ⟨⟨1, 1, 2⟩, ⟨1, 1, 3⟩⟩,
            ⟨3, 3⟩⟩ : GameState).players.get 0).health
          = min (((⟨⟨⟨1, 3, 5⟩, ⟨3, 3, 4⟩⟩, ⟨2, 3⟩, ⟨⟨1, 1, 2⟩,
              ⟨1, 1, 3⟩⟩, ⟨3, 3⟩⟩ : GameState).players.get 0).health + 1)
              ((⟨⟨⟨1, 3, 5⟩, ⟨3, 3, 4⟩⟩, ⟨2, 3⟩, ⟨⟨1, 1, 2⟩, ⟨1, 1, 3⟩⟩,
              ⟨3, 3⟩⟩ : GameState).players.get 0).max_health) ∧
      ((⟨[MapNodeType.Teleport, .Healing, .Normal, .Normal],
          []⟩ : GameMap).get_node_type landing = some MapNodeType.Normal →
        ((⟨⟨⟨2, 3, 5⟩, ⟨3, 3, 4⟩⟩, ⟨1, 3⟩, ⟨⟨1, 1, 2⟩, ⟨1, 1, 3⟩⟩,
            ⟨3, 3⟩⟩ : GameState).players.get 0)
          = ((⟨⟨⟨1, 3, 5⟩, ⟨3, 3, 4⟩⟩, ⟨2, 3⟩, ⟨⟨1, 1, 2⟩, ⟨1, 1, 3⟩⟩,
            ⟨3, 3⟩⟩ : GameState).players.get 0)) ∧
      ((⟨[MapNodeType.Teleport, .Healing, .Normal, .Normal],
          []⟩ : GameMap).get_node_type landing = some MapNodeType.Gamble →
        ∃ rngG : Rng,
          (⟨⟨⟨2, 3, 5⟩, ⟨3, 3, 4⟩⟩, ⟨1, 3⟩, ⟨⟨1, 1, 2⟩, ⟨1, 1, 3⟩⟩,
              ⟨3, 3⟩⟩ : GameState)
            = (handle_gamble 0
                { (⟨⟨⟨1, 3, 5⟩, ⟨3, 3, 4⟩⟩, ⟨2, 3⟩, ⟨⟨1, 1, 2⟩,
                    ⟨1, 1, 3⟩⟩, ⟨3, 3⟩⟩ : GameState) with
                  player_positions :=
                    (⟨⟨⟨1, 3, 5⟩, ⟨3, 3, 4⟩⟩, ⟨2, 3⟩, ⟨⟨1, 1, 2⟩,
                      ⟨1, 1, 3⟩⟩,
                      ⟨3, 3⟩⟩ : GameState).player_positions.set 0 landing }
                { (⟨[1, 0], [], []⟩ : Env) with rng := rngG }).1 ∧
          (⟨[], [], []⟩ : Env)
            = (handle_gamble 0
                { (⟨⟨⟨1, 3, 5⟩, ⟨3, 3, 4⟩⟩, ⟨2, 3⟩, ⟨⟨1, 1, 2⟩,
                    ⟨1, 1, 3⟩⟩, ⟨3, 3⟩⟩ : GameState) with
                  player_positions :=
                    (⟨⟨⟨1, 3, 5⟩, ⟨3, 3, 4⟩⟩, ⟨2, 3⟩, ⟨⟨1, 1, 2⟩,
                      ⟨1, 1, 3⟩⟩,
                      ⟨3, 3⟩⟩ : GameState).player_positions.set 0 landing }
                { (⟨[1, 0], [], []⟩ : Env) with rng := rngG }).2) :=
  c2_teleport_relocation
    ⟨[MapNodeType.Teleport, .Healing, .Normal, .Normal], []⟩ 0 2 0
    ⟨⟨⟨1, 3, 5⟩, ⟨3, 3, 4⟩⟩, ⟨2, 3⟩, ⟨⟨1, 1, 2⟩, ⟨1, 1, 3⟩⟩, ⟨3, 3⟩⟩
    ⟨[1, 0], [], []⟩ rfl
    ⟨⟨⟨2, 3, 5⟩, ⟨3, 3, 4⟩⟩, ⟨1, 3⟩, ⟨⟨1, 1, 2⟩, ⟨1, 1, 3⟩⟩, ⟨3, 3⟩⟩
    ⟨[], [], []⟩ rfl

end ClaimC2

theorem flen_split (l : List (Nat × Nat)) (p q : (Nat × Nat) → Bool) :
    (l.filter (fun a => p a && q a)).length
      + (l.filter (fun a => p a && !q a)).length
    = (l.filter p).length := by
  induction l with
  | nil => simp
  | cons e rest ih =>
    by_cases hq : q e <;> by_cases hp : p e <;>
      simp [hq, hp, List.filter_cons] <;> omega

theorem flen_erase (l : List (Nat × Nat)) (e : Nat × Nat)
    (p : (Nat × Nat) → Bool) (he : e ∈ l) :
    (l.filter p).length
      = ((l.erase e).filter p).length + (if p e then 1 else 0) := by
  induction l with
  | nil => cases he
  | cons x rest ih =>
    by_cases hxe : x = e
    · subst hxe
      by_cases hp : p x <;> simp [List.erase_cons, List.filter_cons, hp]
    · have he2 : e ∈ rest := by
        rcases List.mem_cons.mp he with h | h
        · exact absurd h.symm hxe
        · exact h
      have hbeq : (x == e) = false := by
        simpa using hxe
      by_cases hp : p x <;>
        (simp [List.erase_cons, hbeq, List.filter_cons, hp, ih he2]
         try omega)

theorem flen_append_single (l : List (Nat × Nat)) (e : Nat × Nat)
    (p : (Nat × Nat) → Bool) :
    ((l ++ [e]).filter p).length
      = (l.filter p).length + (if p e then 1 else 0) := by
  by_cases hp : p e <;> simp [List.filter_append, hp]

theorem add_edge_out_count (m : GameMap) (a b x : Nat) :
    (m.add_edge a b).out_count x
      = m.out_count x + (if a = x then 1 else 0) := by
  unfold GameMap.add_edge GameMap.out_count
  rw [flen_append_single]
  by_cases h : a = x <;> simp [h]

theorem add_edge_in_count (m : GameMap) (a b x : Nat) :
    (m.add_edge a b).in_count x
      = m.in_count x + (if b = x then 1 else 0) := by
  unfold GameMap.add_edge GameMap.in_count
  rw [flen_append_single]
  by_cases h : b = x <;> simp [h]

theorem add_edge_loop_count (m : GameMap) (a b x : Nat) :
    (m.add_edge a b).loop_count x
      = m.loop_count x + (if a = x ∧ b = x then 1 else 0) := by
  unfold GameMap.add_edge GameMap.loop_count
  rw [flen_append_single]
  by_cases ha : a = x <;> by_cases hb : b = x <;> simp [ha, hb]

theorem add_edge_count (m : GameMap) (a b : Nat) (e : Nat × Nat) :
    (m.add_edge a b).edges.count e
      = m.edges.count e + (if e = (a, b) then 1 else 0) := by
  unfold GameMap.add_edge
  by_cases h : e = (a, b)
  · subst h
    simp [List.count_append]
  · simp [List.count_append, List.count_cons, h]

theorem add_edge_nodes (m : GameMap) (a b : Nat) :
    (m.add_edge a b).nodes = m.nodes := rfl

theorem remove_loops_out_count (m : GameMap) (t x : Nat) :
    (m.remove_loops t).out_count x + (if x = t then m.loop_count t else 0)
      = m.out_count x := by
  unfold GameMap.remove_loops GameMap.out_count GameMap.loop_count
  dsimp only
  have hsplit := flen_split m.edges (fun e => e.1 == x)
    (fun e => !(e.1 == t && e.2 == t))
  have hcomm : m.edges.filter
      (fun e => (e.1 == x) && !(e.1 == t && e.2 == t))
      = (m.edges.filter (fun e => !(e.1 == t && e.2 == t))).filter
          (fun e => e.1 == x) := by
    rw [List.filter_filter]
  rw [hcomm] at hsplit
  by_cases hx : x = t
  · subst hx
    have hpt : m.edges.filter
        (fun e => (e.1 == x) && !!(e.1 == x && e.2 == x))
        = m.edges.filter (fun e => e.1 == x && e.2 == x) := by
      apply List.filter_congr
      intro e _
      by_cases h1 : e.1 = x <;> by_cases h2 : e.2 = x <;> simp [h1, h2]
    rw [hpt] at hsplit
    simpa using hsplit
  · have hpt : m.edges.filter
        (fun e => (e.1 == x) && !!(e.1 == t && e.2 == t))
        = [] := by
      rw [List.filter_eq_nil_iff]
      intro e _
      by_cases h1 : e.1 = x
      · have h2 : ¬ e.1 = t := fun hh => hx (by rw [← h1, hh])
        simp [h1, h2, hx]
      · simp [h1]
    rw [hpt] at hsplit
    simpa [hx] using hsplit

theorem remove_loops_in_count (m : GameMap) (t x : Nat) :
    (m.remove_loops t).in_count x + (if x = t then m.loop_count t else 0)
      = m.in_count x := by
  unfold GameMap.remove_loops GameMap.in_count GameMap.loop_count
  dsimp only
  have hsplit := flen_split m.edges (fun e => e.2 == x)
    (fun e => !(e.1 == t && e.2 == t))
  have hcomm : m.edges.filter
      (fun e => (e.2 == x) && !(e.1 == t && e.2 == t))
      = (m.edges.filter (fun e => !(e.1 == t && e.2 == t))).filter
          (fun e => e.2 == x) := by
    rw [List.filter_filter]
  rw [hcomm] at hsplit
  by_cases hx : x = t
  · subst hx
    have hpt : m.edges.filter
        (fun e => (e.2 == x) && !!(e.1 == x && e.2 == x))
        = m.edges.filter (fun e => e.1 == x && e.2 == x) := by
      apply List.filter_congr
      intro e _
      by_cases h1 : e.1 = x <;> by_cases h2 : e.2 = x <;> simp [h1, h2]
    rw [hpt] at hsplit
    simpa using hsplit
  · have hpt : m.edges.filter
        (fun e => (e.2 == x) && !!(e.1 == t && e.2 == t))
        = [] := by
      rw [List.filter_eq_nil_iff]
      intro e _
      by_cases h1 : e.2 = x
      · have h2 : ¬ e.2 = t := fun hh => hx (by rw [← h1, hh])
        simp [h1, h2, hx]
      · simp [h1]
    rw [hpt] at hsplit
    simpa [hx] using hsplit

theorem remove_loops_loop_count_self (m : GameMap) (t : Nat) :
    (m.remove_loops t).loop_count t = 0 := by
  unfold GameMap.remove_loops GameMap.loop_count
  dsimp only
  rw [List.filter_filter]
  rw [List.length_eq_zero]
  rw [List.filter_eq_nil_iff]
  intro e _
  cases h1 : (e.1 == t) <;> cases h2 : (e.2 == t) <;> simp [h1, h2]

theorem remove_loops_loop_count_other (m : GameMap) (t x : Nat)
    (hx : x ≠ t) :
    (m.remove_loops t).loop_count x = m.loop_count x := by
  unfold GameMap.remove_loops GameMap.loop_count
  dsimp only
  rw [List.filter_filter]
  apply congrArg List.length
  apply List.filter_congr
  intro e _
  by_cases h1 : e.1 = x
  · by_cases h2 : e.2 = x
    · have h3 : ¬ e.1 = t := fun hh => hx (by rw [← h1, hh])
      simp [h1, h2, h3, hx]
    · simp [h1, h2]
  · simp [h1]

theorem remove_loops_count (m : GameMap) (t : Nat) (e : Nat × Nat)
    (he : e ≠ (t, t)) :
    (m.remove_loops t).edges.count e = m.edges.count e := by
  unfold GameMap.remove_loops
  dsimp only
  have hq : (!(e.1 == t && e.2 == t)) = true := by
    rcases e with ⟨e1, e2⟩
    by_cases h1 : e1 = t
    · by_cases h2 : e2 = t
      · exact absurd (by rw [h1, h2]) he
      · simp [h1, h2]
    · simp [h1]
  exact List.count_filter hq

theorem remove_loops_nodes (m : GameMap) (t : Nat) :
    (m.remove_loops t).nodes = m.nodes := rfl

theorem flen_mono (l : List (Nat × Nat)) (p q : (Nat × Nat) → Bool)
    (h : ∀ e, p e = true → q e = true) :
    (l.filter p).length ≤ (l.filter q).length := by
  induction l with
  | nil => simp
  | cons e rest ih =>
    by_cases hp : p e
    · have hq := h e hp
      simp [List.filter_cons, hp, hq]
      omega
    · by_cases hq : q e <;> simp [List.filter_cons, hp, hq] <;> omega

theorem loop_le_out (m : GameMap) (x : Nat) :
    m.loop_count x ≤ m.out_count x := by
  unfold GameMap.loop_count GameMap.out_count
  apply flen_mono
  intro e he
  exact (Bool.and_eq_true _ _ |>.mp he).1

theorem degree_of_bal (m : GameMap) (x : Nat)
    (h : m.out_count x = m.in_count x) :
    m.get_node_degree x = m.out_count x - m.loop_count x / 2 := by
  unfold GameMap.get_node_degree
  rw [← h, Nat.max_self]

theorem degree_eq_counts (m m2 : GameMap) (x : Nat)
    (ho : m2.out_count x = m.out_count x)
    (hi : m2.in_count x = m.in_count x)
    (hl : m2.loop_count x = m.loop_count x) :
    m2.get_node_degree x = m.get_node_degree x := by
  unfold GameMap.get_node_degree
  rw [ho, hi, hl]

/-- The inductive invariant of the edge-building loop: pair multiplicity at
most 1, at most 2 self-loops per node, symmetric non-loop edges, balanced
out/in counts, and degree at most 4. -/
structure MapInv (m : GameMap) : Prop where
  nodup : ∀ a b : Nat, a ≠ b → m.edges.count (a, b) ≤ 1
  loops2 : ∀ x : Nat, m.loop_count x ≤ 2
  symm : ∀ a b : Nat, a ≠ b → m.edges.count (a, b) = m.edges.count (b, a)
  bal : ∀ x : Nat, m.out_count x = m.in_count x
  deg4 : ∀ x : Nat, m.get_node_degree x ≤ 4

/-- What room-making guarantees before the new pair of edges is added. -/
structure RoomedSpec (m m2 : GameMap) (node target : Nat) : Prop where
  nodes_eq : m2.nodes = m.nodes
  inv : MapInv m2
  degt : m2.get_node_degree target ≤ 3
  cnt_nt : m2.edges.count (node, target) = 0
  cnt_tn : m2.edges.count (target, node) = 0
  out_node : m2.out_count node = m.out_count node
  in_node : m2.in_count node = m.in_count node
  loop_node : m2.loop_count node = m.loop_count node

theorem add_pair_inv (m m2 : GameMap) (node target : Nat)
    (hInv : MapInv m) (sp : RoomedSpec m m2 node target)
    (hne : node ≠ target) (hdeg_node : m.get_node_degree node < 3) :
    MapInv ((m2.add_edge node target).add_edge target node) := by
  have hout : ∀ x, ((m2.add_edge node target).add_edge target node).out_count x
      = m2.out_count x + (if node = x then 1 else 0)
        + (if target = x then 1 else 0) := by
    intro x
    rw [add_edge_out_count, add_edge_out_count]
    try omega
  have hin : ∀ x, ((m2.add_edge node target).add_edge target node).in_count x
      = m2.in_count x + (if node = x then 1 else 0)
        + (if target = x then 1 else 0) := by
    intro x
    rw [add_edge_in_count, add_edge_in_count]
    try omega
  have hloop : ∀ x,
      ((m2.add_edge node target).add_edge target node).loop_count x
        = m2.loop_count x := by
    intro x
    rw [add_edge_loop_count, add_edge_loop_count]
    have h1 : ¬ (node = x ∧ target = x) := by
      rintro ⟨h, h2⟩
      exact hne (h.trans h2.symm)
    have h2 : ¬ (target = x ∧ node = x) := by
      rintro ⟨h, h2⟩
      exact hne (h2.trans h.symm)
    simp [h1, h2]
  have hcnt : ∀ e : Nat × Nat,
      ((m2.add_edge node target).add_edge target node).edges.count e
        = m2.edges.count e + (if e = (node, target) then 1 else 0)
          + (if e = (target, node) then 1 else 0) := by
    intro e
    rw [add_edge_count, add_edge_count]
    try omega
  have hne_pair1 : ¬ ((node, target) : Nat × Nat) = (target, node) := by
    rw [Prod.mk.injEq]
    rintro ⟨h, _⟩
    exact hne h
  have hne_pair2 : ¬ ((target, node) : Nat × Nat) = (node, target) := by
    rw [Prod.mk.injEq]
    rintro ⟨h, _⟩
    exact hne h.symm
  refine ⟨?_, ?_, ?_, ?_, ?_⟩
  · intro a b hab
    rw [hcnt]
    rcases eq_or_ne ((a, b) : Nat × Nat) (node, target) with h1 | h1
    · rw [Prod.mk.injEq] at h1
      obtain ⟨ha, hb⟩ := h1
      subst ha
      subst hb
      rw [sp.cnt_nt, if_pos rfl, if_neg hne_pair1]
    · rcases eq_or_ne ((a, b) : Nat × Nat) (target, node) with h2 | h2
      · rw [Prod.mk.injEq] at h2
        obtain ⟨ha, hb⟩ := h2
        subst ha
        subst hb
        rw [sp.cnt_tn, if_pos rfl, if_neg hne_pair2]
      · rw [if_neg h1, if_neg h2]
        have := sp.inv.nodup a b hab
        omega
  · intro x
    rw [hloop]
    exact sp.inv.loops2 x
  · intro a b hab
    rw [hcnt, hcnt]
    have hsy := sp.inv.symm a b hab
    rcases eq_or_ne ((a, b) : Nat × Nat) (node, target) with h1 | h1
    · rw [Prod.mk.injEq] at h1
      obtain ⟨ha, hb⟩ := h1
      subst ha
      subst hb
      rw [if_pos rfl, if_neg hne_pair1, if_pos rfl, if_neg hne_pair2, hsy]
    · rcases eq_or_ne ((a, b) : Nat × Nat) (target, node) with h2 | h2
      · rw [Prod.mk.injEq] at h2
        obtain ⟨ha, hb⟩ := h2
        subst ha
        subst hb
        rw [if_neg hne_pair2, if_pos rfl, if_neg hne_pair1, if_pos rfl, hsy]
      · have h3 : ¬ ((b, a) : Nat × Nat) = (node, target) := by
          rw [Prod.mk.injEq]
          rintro ⟨hb, ha⟩
          apply h2
          rw [Prod.mk.injEq]
          exact ⟨ha, hb⟩
        have h4 : ¬ ((b, a) : Nat × Nat) = (target, node) := by
          rw [Prod.mk.injEq]
          rintro ⟨hb, ha⟩
          apply h1
          rw [Prod.mk.injEq]
          exact ⟨ha, hb⟩
        rw [if_neg h1, if_neg h2, if_neg h3, if_neg h4, hsy]
  · intro x
    rw [hout, hin]
    rw [sp.inv.bal x]
  · intro x
    have hb4 : ((m2.add_edge node target).add_edge target node).out_count x
        = ((m2.add_edge node target).add_edge target node).in_count x := by
      rw [hout, hin, sp.inv.bal x]
    rw [degree_of_bal _ _ hb4, hout x, hloop x]
    by_cases hxn : node = x
    · subst hxn
      have hxt : ¬ target = node := fun hc => hne hc.symm
      rw [if_pos rfl, if_neg hxt]
      have hdm : m.get_node_degree node = m.out_count node
          - m.loop_count node / 2 := degree_of_bal m node (hInv.bal node)
      rw [sp.out_node, sp.loop_node]
      have hll := loop_le_out m node
      omega
    · by_cases hxt : target = x
      · subst hxt
        have hd2 : m2.get_node_degree target = m2.out_count target
            - m2.loop_count target / 2 :=
          degree_of_bal m2 target (sp.inv.bal target)
        have hdt := sp.degt
        rw [hd2] at hdt
        have hll := loop_le_out m2 target
        rw [if_neg hxn, if_pos rfl]
        omega
      · rw [if_neg hxn, if_neg hxt]
        have hd2 : m2.get_node_degree x = m2.out_count x
            - m2.loop_count x / 2 := degree_of_bal m2 x (sp.inv.bal x)
        have hdx := sp.inv.deg4 x
        rw [hd2] at hdx
        omega

theorem add_self_inv (m : GameMap) (t : Nat) (hInv : MapInv m)
    (hdeg : m.get_node_degree t < 3) (hloop : m.loop_count t = 0) :
    MapInv (m.add_edge t t) ∧ MapInv ((m.add_edge t t).add_edge t t) := by
  have hout1 : ∀ x, (m.add_edge t t).out_count x
      = m.out_count x + (if t = x then 1 else 0) := add_edge_out_count m t t
  have hin1 : ∀ x, (m.add_edge t t).in_count x
      = m.in_count x + (if t = x then 1 else 0) := add_edge_in_count m t t
  have hloop1 : ∀ x, (m.add_edge t t).loop_count x
      = m.loop_count x + (if t = x then 1 else 0) := by
    intro x
    rw [add_edge_loop_count]
    by_cases h : t = x <;> simp [h]
  have hcnt1 : ∀ e : Nat × Nat, (m.add_edge t t).edges.count e
      = m.edges.count e + (if e = (t, t) then 1 else 0) :=
    fun e => add_edge_count m t t e
  have hdm : m.get_node_degree t = m.out_count t - m.loop_count t / 2 :=
    degree_of_bal m t (hInv.bal t)
  have houtb : m.out_count t < 3 := by
    rw [hdm, hloop] at hdeg
    omega
  have hinv1 : MapInv (m.add_edge t t) := by
    refine ⟨?_, ?_, ?_, ?_, ?_⟩
    · intro a b hab
      rw [hcnt1]
      have hne : ¬ ((a, b) : Nat × Nat) = (t, t) := by
        rw [Prod.mk.injEq]
        rintro ⟨h1, h2⟩
        exact hab (h1.trans h2.symm)
      rw [if_neg hne]
      have := hInv.nodup a b hab
      omega
    · intro x
      have e4 := hloop1 x
      by_cases h : t = x
      · subst h
        rw [if_pos rfl] at e4
        rw [e4, hloop]
        omega
      · rw [if_neg h] at e4
        rw [e4]
        have := hInv.loops2 x
        omega
    · intro a b hab
      rw [hcnt1, hcnt1]
      have hne1 : ¬ ((a, b) : Nat × Nat) = (t, t) := by
        rw [Prod.mk.injEq]
        rintro ⟨h1, h2⟩
        exact hab (h1.trans h2.symm)
      have hne2 : ¬ ((b, a) : Nat × Nat) = (t, t) := by
        rw [Prod.mk.injEq]
        rintro ⟨h1, h2⟩
        exact hab (h2.trans h1.symm)
      rw [if_neg hne1, if_neg hne2, hInv.symm a b hab]
    · intro x
      rw [hout1, hin1, hInv.bal x]
    · intro x
      have hb : (m.add_edge t t).out_count x
          = (m.add_edge t t).in_count x := by
        rw [hout1, hin1, hInv.bal x]
      have hdt := degree_of_bal _ x hb
      have e1 := hout1 x
      have e4 := hloop1 x
      by_cases h : t = x
      · subst h
        rw [if_pos rfl] at e1 e4
        rw [hdt, e1, e4, hloop]
        omega
      · rw [if_neg h] at e1 e4
        have hdx : m.get_node_degree x
            = m.out_count x - m.loop_count x / 2 :=
          degree_of_bal m x (hInv.bal x)
        have h4 := hInv.deg4 x
        rw [hdx] at h4
        rw [hdt, e1, e4]
        omega
  refine ⟨hinv1, ?_⟩
  have hout2 : ∀ x, ((m.add_edge t t).add_edge t t).out_count x
      = (m.add_edge t t).out_count x + (if t = x then 1 else 0) :=
    add_edge_out_count _ t t
  have hin2 : ∀ x, ((m.add_edge t t).add_edge t t).in_count x
      = (m.add_edge t t).in_count x + (if t = x then 1 else 0) :=
    add_edge_in_count _ t t
  have hloop2 : ∀ x, ((m.add_edge t t).add_edge t t).loop_count x
      = (m.add_edge t t).loop_count x + (if t = x then 1 else 0) := by
    intro x
    rw [add_edge_loop_count]
    by_cases h : t = x <;> simp [h]
  have hcnt2 : ∀ e : Nat × Nat, ((m.add_edge t t).add_edge t t).edges.count e
      = (m.add_edge t t).edges.count e + (if e = (t, t) then 1 else 0) :=
    fun e => add_edge_count _ t t e
  refine ⟨?_, ?_, ?_, ?_, ?_⟩
  · intro a b hab
    rw [hcnt2]
    have hne : ¬ ((a, b) : Nat × Nat) = (t, t) := by
      rw [Prod.mk.injEq]
      rintro ⟨h1, h2⟩
      exact hab (h1.trans h2.symm)
    rw [if_neg hne]
    have := hinv1.nodup a b hab
    omega
  · intro x
    have e3 := hloop2 x
    have e4 := hloop1 x
    by_cases h : t = x
    · subst h
      rw [if_pos rfl] at e3 e4
      rw [e3, e4, hloop]
    · rw [if_neg h] at e3 e4
      rw [e3, e4]
      have := hInv.loops2 x
      omega
  · intro a b hab
    rw [hcnt2, hcnt2]
    have hne1 : ¬ ((a, b) : Nat × Nat) = (t, t) := by
      rw [Prod.mk.injEq]
      rintro ⟨h1, h2⟩
      exact hab (h1.trans h2.symm)
    have hne2 : ¬ ((b, a) : Nat × Nat) = (t, t) := by
      rw [Prod.mk.injEq]
      rintro ⟨h1, h2⟩
      exact hab (h2.trans h1.symm)
    rw [if_neg hne1, if_neg hne2, hinv1.symm a b hab]
  · intro x
    rw [hout2, hin2, hinv1.bal x]
  · intro x
    have hb : ((m.add_edge t t).add_edge t t).out_count x
        = ((m.add_edge t t).add_edge t t).in_count x := by
      rw [hout2, hin2, hinv1.bal x]
    have hdt := degree_of_bal _ x hb
    have e1 := hout2 x
    have e2 := hout1 x
    have e3 := hloop2 x
    have e4 := hloop1 x
    by_cases h : t = x
    · subst h
      rw [if_pos rfl] at e1 e2 e3 e4
      rw [hdt, e1, e2, e3, e4, hloop]
      omega
    · rw [if_neg h] at e1 e2 e3 e4
      have hdx : m.get_node_degree x = m.out_count x - m.loop_count x / 2 :=
        degree_of_bal m x (hInv.bal x)
      have h4 := hInv.deg4 x
      rw [hdx] at h4
      rw [hdt, e1, e2, e3, e4]
      omega

theorem find_edge_false_count (m : GameMap) (a b : Nat)
    (h : m.find_edge a b = false) : m.edges.count (a, b) = 0 := by
  unfold GameMap.find_edge at h
  rw [List.count_eq_zero]
  intro hc
  rw [List.contains_eq_any_beq] at h
  have h2 : m.edges.any (fun x => (a, b) == x) = true := by
    rw [List.any_eq_true]
    exact ⟨(a, b), hc, by simp⟩
  rw [h2] at h
  cases h

theorem count_pos_find_edge (m : GameMap) (a b : Nat)
    (h : m.edges.count (a, b) ≠ 0) : m.find_edge a b = true := by
  unfold GameMap.find_edge
  have hmem : (a, b) ∈ m.edges := by
    by_contra hc
    exact h (List.count_eq_zero.mpr hc)
  rw [List.contains_eq_any_beq, List.any_eq_true]
  exact ⟨(a, b), hmem, by simp⟩


theorem roomed_id_spec (m : GameMap) (node target : Nat) (hInv : MapInv m)
    (hdeg3 : m.get_node_degree target ≤ 3)
    (hcnt_nt : m.edges.count (node, target) = 0)
    (hcnt_tn : m.edges.count (target, node) = 0) :
    RoomedSpec m m node target :=
  ⟨rfl, hInv, hdeg3, hcnt_nt, hcnt_tn, rfl, rfl, rfl⟩

theorem roomed_loops_spec (m : GameMap) (node target : Nat)
    (hInv : MapInv m) (hdeg4 : 4 ≤ m.get_node_degree target)
    (hL : m.loop_count target ≠ 0) (hne : node ≠ target)
    (hcnt_nt : m.edges.count (node, target) = 0)
    (hcnt_tn : m.edges.count (target, node) = 0) :
    RoomedSpec m (m.remove_loops target) node target := by
  have hdm : m.get_node_degree target
      = m.out_count target - m.loop_count target / 2 :=
    degree_of_bal m target (hInv.bal target)
  have hL2 := hInv.loops2 target
  have hlo := loop_le_out m target
  have hd4 := hInv.deg4 target
  have hbal2 : ∀ x, (m.remove_loops target).out_count x
      = (m.remove_loops target).in_count x := by
    intro x
    have ho := remove_loops_out_count m target x
    have hi := remove_loops_in_count m target x
    have hb := hInv.bal x
    omega
  have houtt : (m.remove_loops target).out_count target
      + m.loop_count target = m.out_count target := by
    have := remove_loops_out_count m target target
    simpa using this
  have hdeg2t : (m.remove_loops target).get_node_degree target = 3 := by
    rw [degree_of_bal _ _ (hbal2 target), remove_loops_loop_count_self]
    omega
  refine ⟨rfl, ⟨?_, ?_, ?_, hbal2, ?_⟩, ?_, ?_, ?_, ?_, ?_, ?_⟩
  · intro a b hab
    have hne2 : ((a, b) : Nat × Nat) ≠ (target, target) := by
      intro hh
      rw [Prod.mk.injEq] at hh
      exact hab (hh.1.trans hh.2.symm)
    rw [remove_loops_count m target _ hne2]
    exact hInv.nodup a b hab
  · intro x
    by_cases h : x = target
    · subst h
      rw [remove_loops_loop_count_self]
      omega
    · rw [remove_loops_loop_count_other m target x h]
      exact hInv.loops2 x
  · intro a b hab
    have hne2 : ((a, b) : Nat × Nat) ≠ (target, target) := by
      intro hh
      rw [Prod.mk.injEq] at hh
      exact hab (hh.1.trans hh.2.symm)
    have hne3 : ((b, a) : Nat × Nat) ≠ (target, target) := by
      intro hh
      rw [Prod.mk.injEq] at hh
      exact hab (hh.2.trans hh.1.symm)
    rw [remove_loops_count m target _ hne2,
      remove_loops_count m target _ hne3]
    exact hInv.symm a b hab
  · intro x
    by_cases h : x = target
    · subst h
      rw [hdeg2t]
      omega
    · have ho := remove_loops_out_count m target x
      have hi := remove_loops_in_count m target x
      have hl := remove_loops_loop_count_other m target x h
      rw [if_neg h] at ho hi
      have hd := degree_eq_counts m (m.remove_loops target) x
        (by omega) (by omega) hl
      rw [hd]
      exact hInv.deg4 x
  · rw [hdeg2t]
  · have hne2 : ((node, target) : Nat × Nat) ≠ (target, target) := by
      intro hh
      rw [Prod.mk.injEq] at hh
      exact hne hh.1
    rw [remove_loops_count m target _ hne2]
    exact hcnt_nt
  · have hne2 : ((target, node) : Nat × Nat) ≠ (target, target) := by
      intro hh
      rw [Prod.mk.injEq] at hh
      exact hne hh.2.symm.symm
    rw [remove_loops_count m target _ hne2]
    exact hcnt_tn
  · have ho := remove_loops_out_count m target node
    rw [if_neg hne] at ho
    omega
  · have hi := remove_loops_in_count m target node
    rw [if_neg hne] at hi
    omega
  · exact remove_loops_loop_count_other m target node hne

theorem erase_out_count (m : GameMap) (a b x : Nat) (h : (a, b) ∈ m.edges) :
    m.out_count x
      = (m.remove_edge_once (a, b)).out_count x + (if a = x then 1 else 0) := by
  unfold GameMap.out_count GameMap.remove_edge_once
  dsimp only
  have h2 := flen_erase m.edges (a, b) (fun e => e.1 == x) h
  by_cases hax : a = x
  · simpa [hax] using h2
  · simpa [hax] using h2

theorem erase_in_count (m : GameMap) (a b x : Nat) (h : (a, b) ∈ m.edges) :
    m.in_count x
      = (m.remove_edge_once (a, b)).in_count x + (if b = x then 1 else 0) := by
  unfold GameMap.in_count GameMap.remove_edge_once
  dsimp only
  have h2 := flen_erase m.edges (a, b) (fun e => e.2 == x) h
  by_cases hbx : b = x
  · simpa [hbx] using h2
  · simpa [hbx] using h2

theorem erase_loop_count (m : GameMap) (a b x : Nat) (h : (a, b) ∈ m.edges) :
    m.loop_count x = (m.remove_edge_once (a, b)).loop_count x
      + (if a = x ∧ b = x then 1 else 0) := by
  unfold GameMap.loop_count GameMap.remove_edge_once
  dsimp only
  have h2 := flen_erase m.edges (a, b) (fun e => e.1 == x && e.2 == x) h
  by_cases hax : a = x
  · by_cases hbx : b = x
    · simpa [hax, hbx] using h2
    · simpa [hax, hbx] using h2
  · simpa [hax] using h2

theorem erase_pair_count (m : GameMap) (a b : Nat) (e : Nat × Nat)
    (h : (a, b) ∈ m.edges) :
    m.edges.count e = (m.remove_edge_once (a, b)).edges.count e
      + (if e = (a, b) then 1 else 0) := by
  unfold GameMap.remove_edge_once
  dsimp only
  rw [List.count_erase]
  by_cases he : e = (a, b)
  · subst he
    have hpos : 0 < m.edges.count (a, b) := List.count_pos_iff.mpr h
    simp
    omega
  · have hbe : ((a, b) == e) = false := by
      simp
      exact fun hc => he hc.symm
    simp [hbe, he]

theorem roomed_evict_spec (m : GameMap) (node target o : Nat)
    (hInv : MapInv m) (hdeg4 : 4 ≤ m.get_node_degree target)
    (hL : m.loop_count target = 0) (hne : node ≠ target)
    (ho_t : o ≠ target) (ho_n : o ≠ node)
    (hmem : (target, o) ∈ m.edges)
    (hcnt_nt : m.edges.count (node, target) = 0)
    (hcnt_tn : m.edges.count (target, node) = 0) :
    m.edges.count (target, o) = 1 ∧
    (m.remove_edge_once (target, o)).edges.count (o, target) ≠ 0 ∧
    RoomedSpec m
      ((m.remove_edge_once (target, o)).remove_edge_once (o, target))
      node target := by
  have hto_ne : target ≠ o := fun hc => ho_t hc.symm
  have hc_to : m.edges.count (target, o) = 1 := by
    have h1 := List.count_pos_iff.mpr hmem
    have h2 := hInv.nodup target o hto_ne
    omega
  have hc_ot : m.edges.count (o, target) = 1 := by
    rw [← hInv.symm target o hto_ne]
    exact hc_to
  have hc1_ot : (m.remove_edge_once (target, o)).edges.count (o, target)
      = 1 := by
    have := erase_pair_count m target o (o, target) hmem
    have hne2 : ((o, target) : Nat × Nat) ≠ (target, o) := by
      intro hh
      rw [Prod.mk.injEq] at hh
      exact ho_t hh.1
    rw [if_neg hne2] at this
    omega
  have hmem1 : (o, target) ∈ (m.remove_edge_once (target, o)).edges :=
    List.count_pos_iff.mp (by omega)
  refine ⟨hc_to, by omega, ?_⟩
  have eo1 := fun x => erase_out_count m target o x hmem
  have ei1 := fun x => erase_in_count m target o x hmem
  have el1 := fun x => erase_loop_count m target o x hmem
  have ec1 := fun e => erase_pair_count m target o e hmem
  have eo2 := fun x => erase_out_count (m.remove_edge_once (target, o))
    o target x hmem1
  have ei2 := fun x => erase_in_count (m.remove_edge_once (target, o))
    o target x hmem1
  have el2 := fun x => erase_loop_count (m.remove_edge_once (target, o))
    o target x hmem1
  have ec2 := fun e => erase_pair_count (m.remove_edge_once (target, o))
    o target e hmem1
  have hlz : ∀ x, ¬ (target = x ∧ o = x) := by
    rintro x ⟨h1, h2⟩
    exact hto_ne (h1.trans h2.symm)
  have hlz2 : ∀ x, ¬ (o = x ∧ target = x) := by
    rintro x ⟨h1, h2⟩
    exact ho_t (h1.trans h2.symm)
  have hloopeq : ∀ x,
      ((m.remove_edge_once (target, o)).remove_edge_once
        (o, target)).loop_count x = m.loop_count x := by
    intro x
    have h1 := el1 x
    have h2 := el2 x
    rw [if_neg (hlz x)] at h1
    rw [if_neg (hlz2 x)] at h2
    omega
  have houteq : ∀ x,
      m.out_count x
        = ((m.remove_edge_once (target, o)).remove_edge_once
            (o, target)).out_count x
          + (if target = x then 1 else 0) + (if o = x then 1 else 0) := by
    intro x
    have h1 := eo1 x
    have h2 := eo2 x
    omega
  have hineq : ∀ x,
      m.in_count x
        = ((m.remove_edge_once (target, o)).remove_edge_once
            (o, target)).in_count x
          + (if o = x then 1 else 0) + (if target = x then 1 else 0) := by
    intro x
    have h1 := ei1 x
    have h2 := ei2 x
    omega
  have hcnteq : ∀ e : Nat × Nat,
      m.edges.count e
        = ((m.remove_edge_once (target, o)).remove_edge_once
            (o, target)).edges.count e
          + (if e = (target, o) then 1 else 0)
          + (if e = (o, target) then 1 else 0) := by
    intro e
    have h1 := ec1 e
    have h2 := ec2 e
    omega
  have hbal2 : ∀ x,
      ((m.remove_edge_once (target, o)).remove_edge_once
        (o, target)).out_count x
      = ((m.remove_edge_once (target, o)).remove_edge_once
        (o, target)).in_count x := by
    intro x
    have h1 := houteq x
    have h2 := hineq x
    have h3 := hInv.bal x
    omega
  have hdm : m.get_node_degree target
      = m.out_count target - m.loop_count target / 2 :=
    degree_of_bal m target (hInv.bal target)
  have hd4t := hInv.deg4 target
  have hdegt : ((m.remove_edge_once (target, o)).remove_edge_once
      (o, target)).get_node_degree target = 3 := by
    rw [degree_of_bal _ _ (hbal2 target), hloopeq target, hL]
    have h1 := houteq target
    rw [if_pos rfl, if_neg (fun hc => ho_t hc)] at h1
    rw [hdm, hL] at hdeg4 hd4t
    omega
  refine ⟨rfl, ⟨?_, ?_, ?_, hbal2, ?_⟩, by rw [hdegt], ?_, ?_, ?_, ?_, ?_⟩
  · intro a b hab
    have h1 := hcnteq (a, b)
    have h2 := hInv.nodup a b hab
    omega
  · intro x
    rw [hloopeq x]
    exact hInv.loops2 x
  · intro a b hab
    have h1 := hcnteq (a, b)
    have h2 := hcnteq (b, a)
    have h3 := hInv.symm a b hab
    by_cases hab1 : ((a, b) : Nat × Nat) = (target, o)
    · rw [Prod.mk.injEq] at hab1
      have hba1 : ((b, a) : Nat × Nat) = (o, target) := by
        rw [Prod.mk.injEq]
        exact ⟨hab1.2, hab1.1⟩
      have hab2 : ¬ ((a, b) : Nat × Nat) = (o, target) := by
        intro hh
        rw [Prod.mk.injEq] at hh
        exact hto_ne (hab1.1.symm.trans hh.1)
      have hba2 : ¬ ((b, a) : Nat × Nat) = (target, o) := by
        intro hh
        rw [Prod.mk.injEq] at hh
        exact hto_ne (hab1.2.symm.trans hh.1).symm
      rw [if_pos (by rw [Prod.mk.injEq]; exact hab1), if_neg hab2] at h1
      rw [if_pos hba1, if_neg hba2] at h2
      omega
    · by_cases hab2 : ((a, b) : Nat × Nat) = (o, target)
      · rw [Prod.mk.injEq] at hab2
        have hba1 : ((b, a) : Nat × Nat) = (target, o) := by
          rw [Prod.mk.injEq]
          exact ⟨hab2.2, hab2.1⟩
        have hba2 : ¬ ((b, a) : Nat × Nat) = (o, target) := by
          intro hh
          rw [Prod.mk.injEq] at hh
          exact ho_t (hh.1.symm.trans hab2.2)
        rw [if_neg hab1, if_pos (by rw [Prod.mk.injEq]; exact hab2)] at h1
        rw [if_pos hba1, if_neg hba2] at h2
        omega
      · have hba1 : ¬ ((b, a) : Nat × Nat) = (target, o) := by
          intro hh
          rw [Prod.mk.injEq] at hh
          apply hab2
          rw [Prod.mk.injEq]
          exact ⟨hh.2, hh.1⟩
        have hba2 : ¬ ((b, a) : Nat × Nat) = (o, target) := by
          intro hh
          rw [Prod.mk.injEq] at hh
          apply hab1
          rw [Prod.mk.injEq]
          exact ⟨hh.2, hh.1⟩
        rw [if_neg hab1, if_neg hab2] at h1
        rw [if_neg hba1, if_neg hba2] at h2
        omega
  · intro x
    by_cases hx : x = target
    · subst hx
      rw [hdegt]
      omega
    · by_cases hxo : x = o
      · subst hxo
        have h1 := houteq x
        rw [if_neg (fun hc => hx hc.symm), if_pos rfl] at h1
        have hdx : m.get_node_degree x
            = m.out_count x - m.loop_count x / 2 :=
          degree_of_bal m x (hInv.bal x)
        have h4 := hInv.deg4 x
        rw [hdx] at h4
        rw [degree_of_bal _ _ (hbal2 x), hloopeq x]
        omega
      · have h1 := houteq x
        rw [if_neg (fun hc => hx hc.symm),
          if_neg (fun hc => hxo hc.symm)] at h1
        have hdx : m.get_node_degree x
            = m.out_count x - m.loop_count x / 2 :=
          degree_of_bal m x (hInv.bal x)
        have h4 := hInv.deg4 x
        rw [hdx] at h4
        rw [degree_of_bal _ _ (hbal2 x), hloopeq x]
        omega
  · have h1 := hcnteq (node, target)
    have hx1 : ¬ ((node, target) : Nat × Nat) = (target, o) := by
      intro hh
      rw [Prod.mk.injEq] at hh
      exact hne hh.1
    have hx2 : ¬ ((node, target) : Nat × Nat) = (o, target) := by
      intro hh
      rw [Prod.mk.injEq] at hh
      exact ho_n hh.1.symm
    rw [if_neg hx1, if_neg hx2] at h1
    omega
  · have h1 := hcnteq (target, node)
    have hx1 : ¬ ((target, node) : Nat × Nat) = (target, o) := by
      intro hh
      rw [Prod.mk.injEq] at hh
      exact ho_n hh.2.symm
    have hx2 : ¬ ((target, node) : Nat × Nat) = (o, target) := by
      intro hh
      rw [Prod.mk.injEq] at hh
      exact ho_t hh.1.symm
    rw [if_neg hx1, if_neg hx2] at h1
    omega
  · have h1 := houteq node
    rw [if_neg (fun hc => hne hc.symm), if_neg (fun hc => ho_n hc)] at h1
    omega
  · have h1 := hineq node
    rw [if_neg (fun hc => ho_n hc), if_neg (fun hc => hne hc.symm)] at h1
    omega
  · exact (hloopeq node).symm ▸ rfl

theorem add_unbalanced (mr : GameMap) (node target : Nat)
    (hb : mr.out_count target = mr.in_count target) (hne : node ≠ target) :
    (mr.add_edge node target).is_node_balanced target = false := by
  unfold GameMap.is_node_balanced
  rw [beq_eq_false_iff_ne, add_edge_out_count, add_edge_in_count,
    if_neg hne, if_pos rfl]
  omega

theorem mapinv_empty (nodes : List MapNodeType) :
    MapInv (GameMap.mk nodes []) := by
  refine ⟨?_, ?_, ?_, ?_, ?_⟩
  · intro a b _
    simp [List.count_nil]
  · intro x
    simp [GameMap.loop_count]
  · intro a b _
    simp [List.count_nil]
  · intro x
    simp [GameMap.out_count, GameMap.in_count]
  · intro x
    simp [GameMap.get_node_degree, GameMap.out_count, GameMap.in_count,
      GameMap.loop_count]

theorem find_low_degree_none (m : GameMap)
    (h : GameMap.find_low_degree m = none) (x : Nat)
    (hx : x < m.nodes.length) : 3 ≤ m.get_node_degree x := by
  unfold GameMap.find_low_degree at h
  have h2 := List.find?_eq_none.mp h x
    (by simpa [GameMap.node_indices] using List.mem_range.mpr hx)
  simpa using h2

theorem rngRange_bounds (lo hi : Nat) (rng rng2 : Rng) (v : Nat)
    (hlo : lo ≤ hi) (h : rngRange lo hi rng = (v, rng2)) :
    lo ≤ v ∧ v ≤ hi := by
  unfold rngRange at h
  rcases hk : rngNext rng with ⟨k, r⟩
  rw [hk] at h
  dsimp only at h
  rw [Prod.mk.injEq] at h
  have hm : k % (hi + 1 - lo) < hi + 1 - lo := Nat.mod_lt k (by omega)
  omega

theorem map_step_inv (m m2 : GameMap) (node : Nat) (rng rng2 : Rng)
    (hInv : MapInv m) (hdeg_node : m.get_node_degree node < 3)
    (hok : GameMap.map_step m node rng = some (m2, rng2)) :
    MapInv m2 ∧ m2.nodes = m.nodes := by
  unfold GameMap.map_step at hok
  dsimp only at hok
  rcases hpick : rngPick (m.node_indices.filter fun target =>
      !(m.find_edge node target || m.find_edge target node) &&
      !(node == target && !(m.loop_count target == 0))) rng with ⟨ot, rng1⟩
  rw [hpick] at hok
  cases ot with
  | none => simp at hok
  | some target =>
    dsimp only at hok
    have hmem := rngPick_mem _ rng rng1 target hpick
    have hp := (List.mem_filter.mp hmem).2
    rw [Bool.and_eq_true, Bool.not_eq_true', Bool.not_eq_true',
      Bool.or_eq_false_iff] at hp
    have hcnt_nt := find_edge_false_count m node target hp.1.1
    have hcnt_tn := find_edge_false_count m target node hp.1.2
    have hself : node = target → m.loop_count target = 0 := by
      intro h
      have h2 := hp.2
      subst h
      simpa using h2
    by_cases hd4 : 4 ≤ m.get_node_degree target
    · have hne : node ≠ target := by
        intro h
        rw [← h] at hd4
        omega
      rw [if_pos hd4] at hok
      by_cases hL : m.loop_count target ≠ 0
      · rw [if_pos hL] at hok
        dsimp only at hok
        have sp := roomed_loops_spec m node target hInv hd4 hL hne
          hcnt_nt hcnt_tn
        have hcond := add_unbalanced (m.remove_loops target) node target
          (sp.inv.bal target) hne
        rw [hcond] at hok
        simp only [Bool.not_false, Bool.true_or, reduceIte,
          Option.some.injEq, Prod.mk.injEq] at hok
        obtain ⟨h1, h2⟩ := hok
        subst h1
        refine ⟨add_pair_inv m _ node target hInv sp hne hdeg_node, ?_⟩
        rw [add_edge_nodes, add_edge_nodes, sp.nodes_eq]
      · rw [if_neg hL] at hok
        have hL0 : m.loop_count target = 0 := not_ne_iff.mp hL
        rcases houtg : m.outgoing target with _ | ⟨e, rest⟩
        · rw [houtg] at hok
          simp at hok
        · rw [houtg] at hok
          dsimp only at hok
          obtain ⟨t1, o⟩ := e
          have hmem2 : ((t1, o) : Nat × Nat) ∈ m.outgoing target := by
            rw [houtg]
            exact List.mem_cons_self _ _
          unfold GameMap.outgoing at hmem2
          rw [List.mem_reverse, List.mem_filter] at hmem2
          have ht1 : target = t1 := by
            have h3 := hmem2.2
            simp at h3
            exact h3.symm
          subst ht1
          have hmemE : ((target, o) : Nat × Nat) ∈ m.edges := hmem2.1
          dsimp only at hok
          have ho_t : o ≠ target := by
            intro h
            rw [h] at hmemE
            have hmf : ((target, target) : Nat × Nat) ∈ m.edges.filter
                (fun e => e.1 == target && e.2 == target) :=
              List.mem_filter.mpr ⟨hmemE, by simp⟩
            have hpos := List.length_pos_of_mem hmf
            unfold GameMap.loop_count at hL0
            omega
          have ho_n : o ≠ node := by
            intro h
            rw [h] at hmemE
            have hpos := List.count_pos_iff.mpr hmemE
            omega
          obtain ⟨hc_to, hback, sp⟩ := roomed_evict_spec m node target o
            hInv hd4 hL0 hne ho_t ho_n hmemE hcnt_nt hcnt_tn
          have hfeb := count_pos_find_edge (m.remove_edge_once (target, o))
            o target hback
          rw [hfeb] at hok
          simp only [reduceIte] at hok
          have hcond := add_unbalanced
            ((m.remove_edge_once (target, o)).remove_edge_once (o, target))
            node target (sp.inv.bal target) hne
          rw [hcond] at hok
          simp only [Bool.not_false, Bool.true_or, reduceIte,
            Option.some.injEq, Prod.mk.injEq] at hok
          obtain ⟨h1, h2⟩ := hok
          subst h1
          refine ⟨add_pair_inv m _ node target hInv sp hne hdeg_node, ?_⟩
          rw [add_edge_nodes, add_edge_nodes, sp.nodes_eq]
    · rw [if_neg hd4] at hok
      dsimp only at hok
      have hdeg3 : m.get_node_degree target ≤ 3 := by omega
      by_cases hnt : node = target
      · subst hnt
        have hL0 : m.loop_count node = 0 := hself rfl
        have hcondT : (m.add_edge node node).is_node_balanced node
            = true := by
          unfold GameMap.is_node_balanced
          rw [add_edge_out_count, add_edge_in_count, hInv.bal node]
          exact beq_self_eq_true _
        rw [hcondT] at hok
        simp only [Bool.not_true, Bool.or_self] at hok
        obtain ⟨hinv1, hinv2⟩ := add_self_inv m node hInv hdeg_node hL0
        rcases hb : rngBool85 rng1 with ⟨b, rng3⟩
        rw [hb] at hok
        cases b
        · simp at hok
          obtain ⟨h1, h2⟩ := hok
          subst h1
          exact ⟨hinv1, rfl⟩
        · simp at hok
          obtain ⟨h1, h2⟩ := hok
          subst h1
          exact ⟨hinv2, rfl⟩
      · have sp := roomed_id_spec m node target hInv hdeg3 hcnt_nt hcnt_tn
        have hcond := add_unbalanced m node target (sp.inv.bal target) hnt
        rw [hcond] at hok
        simp only [Bool.not_false, Bool.true_or, reduceIte,
          Option.some.injEq, Prod.mk.injEq] at hok
        obtain ⟨h1, h2⟩ := hok
        subst h1
        refine ⟨add_pair_inv m _ node target hInv sp hnt hdeg_node, ?_⟩
        rw [add_edge_nodes, add_edge_nodes, sp.nodes_eq]

theorem map_new_loop_inv (fuel : Nat) (m : GameMap) (rng : Rng)
    (m2 : GameMap) (rng2 : Rng) (hInv : MapInv m)
    (hok : GameMap.map_new_loop fuel m rng = some (m2, rng2)) :
    MapInv m2 ∧ m2.nodes = m.nodes ∧ GameMap.find_low_degree m2 = none := by
  induction fuel generalizing m rng with
  | zero => simp [GameMap.map_new_loop] at hok
  | succ fuel ih =>
    rw [GameMap.map_new_loop] at hok
    rcases hfld : GameMap.find_low_degree m with _ | node
    · rw [hfld] at hok
      simp only [Option.some.injEq, Prod.mk.injEq] at hok
      obtain ⟨h1, h2⟩ := hok
      subst h1
      exact ⟨hInv, rfl, hfld⟩
    · rw [hfld] at hok
      dsimp only at hok
      rcases hstep : GameMap.map_step m node rng with _ | ⟨m3, rng3⟩
      · rw [hstep] at hok
        simp at hok
      · rw [hstep] at hok
        dsimp only at hok
        have hdn : m.get_node_degree node < 3 := by
          unfold GameMap.find_low_degree at hfld
          have h2 := List.find?_some hfld
          simpa using h2
        obtain ⟨hInv3, hnodes3⟩ := map_step_inv m m3 node rng rng3 hInv
          hdn hstep
        obtain ⟨hI, hN, hF⟩ := ih m3 rng3 hInv3 hok
        exact ⟨hI, hN.trans hnodes3, hF⟩

/-- C3: for every RNG stream on which `GameMap::new` succeeds, the
returned graph has between 12 and 16 nodes, exactly 1 Teleport node, 1 or
2 Healing nodes, 1 or 2 Gamble nodes with the remainder Normal, every
node's degree (max of in-degree and out-degree, discounting paired
self-loops) in [3,4], and at most 2 self-loop edges per node. -/
theorem c3_map_generation_invariants (rng rng2 : Rng) (fuel : Nat)
    (m : GameMap) (hok : GameMap.map_new rng fuel = some (m, rng2)) :
    (12 ≤ m.nodes.length ∧ m.nodes.length ≤ 16) ∧
    m.nodes.count MapNodeType.Teleport = 1 ∧
    (1 ≤ m.nodes.count MapNodeType.Healing ∧
      m.nodes.count MapNodeType.Healing ≤ 2) ∧
    (1 ≤ m.nodes.count MapNodeType.Gamble ∧
      m.nodes.count MapNodeType.Gamble ≤ 2) ∧
    m.nodes.count MapNodeType.Normal
      = m.nodes.length - 1 - m.nodes.count MapNodeType.Healing
        - m.nodes.count MapNodeType.Gamble ∧
    (∀ x, x < m.nodes.length →
      3 ≤ m.get_node_degree x ∧ m.get_node_degree x ≤ 4) ∧
    (∀ x, m.loop_count x ≤ 2) := by
  unfold GameMap.map_new at hok
  rcases h1 : rngRange 12 16 rng with ⟨num, rngA⟩
  rw [h1] at hok
  dsimp only at hok
  rcases h2 : rngRange 1 2 rngA with ⟨nh, rngB⟩
  rw [h2] at hok
  dsimp only at hok
  rcases h3 : rngRange 1 2 rngB with ⟨ng, rngC⟩
  rw [h3] at hok
  dsimp only at hok
  obtain ⟨hb1, hb2⟩ := rngRange_bounds 12 16 rng rngA num (by omega) h1
  obtain ⟨hh1, hh2⟩ := rngRange_bounds 1 2 rngA rngB nh (by omega) h2
  obtain ⟨hg1, hg2⟩ := rngRange_bounds 1 2 rngB rngC ng (by omega) h3
  obtain ⟨hInv, hnodes, hfld⟩ := map_new_loop_inv fuel _ rngC m rng2
    (mapinv_empty _) hok
  have hlen : m.nodes.length = num := by
    rw [hnodes]
    simp [List.length_append, List.length_replicate]
    omega
  have hcT : m.nodes.count MapNodeType.Teleport = 1 := by
    rw [hnodes]
    simp [List.count_append, List.count_replicate]
  have hcH : m.nodes.count MapNodeType.Healing = nh := by
    rw [hnodes]
    simp [List.count_append, List.count_replicate]
  have hcG : m.nodes.count MapNodeType.Gamble = ng := by
    rw [hnodes]
    simp [List.count_append, List.count_replicate]
  have hcN : m.nodes.count MapNodeType.Normal = num - 1 - nh - ng := by
    rw [hnodes]
    simp [List.count_append, List.count_replicate]
  refine ⟨by omega, hcT, by omega, by omega, by omega, ?_, hInv.loops2⟩
  intro x hx
  exact ⟨find_low_degree_none m hfld x hx, hInv.deg4 x⟩

def c3_stream : Rng :=
  [637, 261, 759, 367, 814, 707, 965, 861, 757, 667, 944, 542, 29, 860,
   476, 794, 965, 255, 664, 53, 922, 160, 115, 380, 480, 889, 252, 389,
   556, 104, 587, 255, 13, 748, 221, 417, 286]

def c3_map : GameMap :=
  ⟨[MapNodeType.Teleport, MapNodeType.Healing, MapNodeType.Healing,
    MapNodeType.Gamble, MapNodeType.Gamble, MapNodeType.Normal,
    MapNodeType.Normal, MapNodeType.Normal, MapNodeType.Normal,
    MapNodeType.Normal, MapNodeType.Normal, MapNodeType.Normal,
    MapNodeType.Normal, MapNodeType.Normal],
   [(0,3),(3,0),(0,9),(9,0),(0,13),(13,0),(1,13),(13,1),(1,3),(3,1),
    (1,1),(1,1),(2,6),(6,2),(2,10),(10,2),(2,5),(5,2),(3,10),(10,3),
    (4,2),(2,4),(4,7),(7,4),(5,9),(9,5),(6,13),(13,6),(6,5),(5,6),
    (7,12),(12,7),(7,9),(9,7),(8,4),(4,8),(10,7),(7,10),(8,13),(13,8),
    (11,4),(4,11),(12,0),(0,12),(11,5),(5,11),(12,6),(6,12),(8,10),
    (10,8),(11,12),(12,11)]⟩

theorem c3_witness :
    GameMap.map_new c3_stream 1000 = some (c3_map, ([] : Rng)) ∧
    ((12 ≤ c3_map.nodes.length ∧ c3_map.nodes.length ≤ 16) ∧
     c3_map.nodes.count MapNodeType.Teleport = 1 ∧
     (1 ≤ c3_map.nodes.count MapNodeType.Healing ∧
       c3_map.nodes.count MapNodeType.Healing ≤ 2) ∧
     (1 ≤ c3_map.nodes.count MapNodeType.Gamble ∧
       c3_map.nodes.count MapNodeType.Gamble ≤ 2) ∧
     c3_map.nodes.count MapNodeType.Normal
       = c3_map.nodes.length - 1 - c3_map.nodes.count MapNodeType.Healing
         - c3_map.nodes.count MapNodeType.Gamble ∧
     (∀ x, x < c3_map.nodes.length →
       3 ≤ c3_map.get_node_degree x ∧ c3_map.get_node_degree x ≤ 4) ∧
     (∀ x, c3_map.loop_count x ≤ 2)) :=
  have hrun : GameMap.map_new c3_stream 1000 = some (c3_map, ([] : Rng)) :=
    by rfl
  ⟨hrun, c3_map_generation_invariants c3_stream [] 1000 c3_map hrun⟩
